import Mathlib

/-!
# Behaviour planner of `vehicle.cpp`

Shallow embedding of `src/vehicle.cpp` (class `Vehicle`): the maneuver state machine
`successorStates`, the longitudinal regulator `regulateVelocity`, the path synthesiser
`generateXYTrajectory`, the selector `implementNextTrajectory` and the forward predictor
`generatePredictions`.

Conventions of the embedding.

* `double`/`float` quantities are rationals (`ℚ`): every statement below is about exact
  arithmetic, rounding and NaN are outside the model.
* `int` values are `Int`: the only arithmetic on them is `± 1` on lane indices, so
  wrap-around is not modelled. The one `size_t` computation, the bound of the resampling
  loop, is taken modulo `2^64` (`newSampleCount`).
* `std::vector<T>` is `List T`; `std::map<int, T>` is the list of its entries in iteration
  order (`List (Int × T)`).
* A C++ exception (`std::out_of_range` thrown by `.at`) is the result `none`.
* The constants of `vehicle.h` and the helper functions of `helpers.h` / `spline.h` are not
  part of the translated file; they are the fields of `Params` and `Helpers`.
-/

namespace PathPlanning

/-! ## Data model -/

/-- Constants used by `vehicle.cpp` and declared in `vehicle.h`. -/
structure Params where
  DELTA_T : ℚ
  REF_SPEED : ℚ
  REF_SPEED_CHANGE : ℚ
  EMG_SPEED_CHANGE : ℚ
  REF_DIST_LC : ℚ
  LANE_WIDTH : ℚ
  MPH2MS : ℚ
  TRAJ_HORIZ_1 : ℚ
  TRAJ_HORIZ_2 : ℚ
  TRAJ_HORIZ_3 : ℚ

/-- Helper functions called by `vehicle.cpp` and defined elsewhere (`helpers.h`, `spline.h`,
`<cmath>`). `getXY s d maps_s maps_x maps_y` is the coordinate map, `spline ptsx ptsy` the
evaluator of the fitted curve (`tk::spline::set_points` followed by `operator()`). -/
structure Helpers where
  getXY : ℚ → ℚ → List ℚ → List ℚ → List ℚ → ℚ × ℚ
  distance : ℚ → ℚ → ℚ → ℚ → ℚ
  deg2rad : ℚ → ℚ
  atan2 : ℚ → ℚ → ℚ
  cos : ℚ → ℚ
  sin : ℚ → ℚ
  spline : List ℚ → List ℚ → ℚ → ℚ

/-- The fields of class `Vehicle` that `vehicle.cpp` reads or writes. -/
structure Vehicle where
  lane : Int
  s : ℚ
  d : ℚ
  v : ℚ
  a : ℚ
  x : ℚ
  y : ℚ
  yaw : ℚ
  state : String
  goal_lane : Int
  lanes_available : Int
  deriving DecidableEq

/-! ## `Vehicle::successorStates` -/

/-- `Vehicle::successorStates` (vehicle.cpp 489-522): the `push_back`s in source order. -/
def successorStates (ego : Vehicle) : List String :=
  if ego.state = "KL" then
    ["KL"]
      ++ (if ego.lane ≠ 0 then ["LCL"] else [])
      ++ (if ego.lane ≠ ego.lanes_available - 1 then ["LCR"] else [])
  else if ego.state = "LCL" then
    (if ego.lane = ego.goal_lane then ["KL"] else [])
      ++ (if ego.lane ≠ 0 then ["LCL"] else [])
  else if ego.state = "LCR" then
    (if ego.lane = ego.goal_lane then ["KL"] else [])
      ++ (if ego.lane ≠ ego.lanes_available - 1 then ["LCR"] else [])
  else
    []

/-! ## `Vehicle::regulateVelocity` -/

/-- Body of the `for` loop over the vehicle map in `regulateVelocity` (vehicle.cpp 419-451).
The pair carried along is `(too_close, emergency_brake)`; `n` is `previous_path_x.size()`. -/
def regulateLoop (P : Params) (ego_s : ℚ) (current_lane target_lane : Int) (n : Nat) :
    List (Int × Vehicle) → Bool × Bool → Bool × Bool
  | [], flags => flags
  | (_, veh) :: rest, (too_close, emergency_brake) =>
    let ln := veh.lane
    if ln = current_lane ∨ ln = target_lane then
      let check_speed := veh.v
      let check_car_s := veh.s + (n : ℚ) * P.DELTA_T * check_speed
      let too_close1 :=
        if check_car_s > ego_s ∧ check_car_s - ego_s < 30 then true else too_close
      let emergency_brake1 :=
        if check_car_s > ego_s ∧ check_car_s - ego_s < 10 then true else emergency_brake
      regulateLoop P ego_s current_lane target_lane n rest (too_close1, emergency_brake1)
    else
      regulateLoop P ego_s current_lane target_lane n rest (too_close, emergency_brake)

/-- The two flags after the loop, both initialised to `false`. -/
def regulateFlags (P : Params) (ego : Vehicle) (vehicles : List (Int × Vehicle))
    (current_lane target_lane : Int) (previous_path_x : List ℚ) : Bool × Bool :=
  regulateLoop P ego.s current_lane target_lane previous_path_x.length vehicles (false, false)

/-- `Vehicle::regulateVelocity` (vehicle.cpp 411-478). The two reference parameters `ref_vel`
and `init_acc_over` are returned as a pair. -/
def regulateVelocity (P : Params) (ego : Vehicle) (vehicles : List (Int × Vehicle))
    (ref_vel : ℚ) (current_lane target_lane : Int) (previous_path_x : List ℚ)
    (init_acc_over : Bool) : ℚ × Bool :=
  let flags := regulateFlags P ego vehicles current_lane target_lane previous_path_x
  let too_close := flags.1
  let emergency_brake := flags.2
  let upd : ℚ × Bool :=
    if too_close = true then
      if emergency_brake = true then (ref_vel - P.EMG_SPEED_CHANGE, init_acc_over)
      else (ref_vel - P.REF_SPEED_CHANGE, init_acc_over)
    else if ref_vel < P.REF_SPEED then (ref_vel + P.REF_SPEED_CHANGE, init_acc_over)
    else (ref_vel, if init_acc_over = false then true else init_acc_over)
  if upd.1 ≤ 0 then (0, upd.2) else upd

/-! ### The regulator as the specification words it -/

/-- Projected gap `g = s_vehicle + (carried-over path length) * DELTA_T * v_vehicle - s_ego`. -/
def projectedGap (P : Params) (ego : Vehicle) (n : Nat) (veh : Vehicle) : ℚ :=
  veh.s + (n : ℚ) * P.DELTA_T * veh.v - ego.s

/-- Some tracked vehicle in the current or target lane has projected gap `0 < g < bound`. -/
def gapBelow (P : Params) (ego : Vehicle) (vehicles : List (Int × Vehicle))
    (current_lane target_lane : Int) (n : Nat) (bound : ℚ) : Prop :=
  ∃ e ∈ vehicles, (e.2.lane = current_lane ∨ e.2.lane = target_lane) ∧
    0 < projectedGap P ego n e.2 ∧ projectedGap P ego n e.2 < bound

instance (P : Params) (ego : Vehicle) (vehicles : List (Int × Vehicle))
    (current_lane target_lane : Int) (n : Nat) (bound : ℚ) :
    Decidable (gapBelow P ego vehicles current_lane target_lane n bound) := by
  unfold gapBelow; infer_instance

/-- Specification wording of `too_close` (threshold 30). -/
def tooCloseSpec (P : Params) (ego : Vehicle) (vehicles : List (Int × Vehicle))
    (current_lane target_lane : Int) (n : Nat) : Prop :=
  gapBelow P ego vehicles current_lane target_lane n 30

/-- Specification wording of `emergency` (threshold 10). -/
def emergencySpec (P : Params) (ego : Vehicle) (vehicles : List (Int × Vehicle))
    (current_lane target_lane : Int) (n : Nat) : Prop :=
  gapBelow P ego vehicles current_lane target_lane n 10

instance (P : Params) (ego : Vehicle) (vehicles : List (Int × Vehicle))
    (current_lane target_lane : Int) (n : Nat) :
    Decidable (tooCloseSpec P ego vehicles current_lane target_lane n) := by
  unfold tooCloseSpec; infer_instance

instance (P : Params) (ego : Vehicle) (vehicles : List (Int × Vehicle))
    (current_lane target_lane : Int) (n : Nat) :
    Decidable (emergencySpec P ego vehicles current_lane target_lane n) := by
  unfold emergencySpec; infer_instance

/-- The speed update as the specification states it. -/
def regulateSpeedSpec (P : Params) (ego : Vehicle) (vehicles : List (Int × Vehicle))
    (old : ℚ) (current_lane target_lane : Int) (n : Nat) : ℚ :=
  if tooCloseSpec P ego vehicles current_lane target_lane n then
    if emergencySpec P ego vehicles current_lane target_lane n then
      max 0 (old - P.EMG_SPEED_CHANGE)
    else max 0 (old - P.REF_SPEED_CHANGE)
  else if old < P.REF_SPEED then max 0 (old + P.REF_SPEED_CHANGE)
  else max 0 old

/-! ## `Vehicle::generateXYTrajectory` -/

/-- The copy loop of vehicle.cpp 71-74: `previous_x_path.size()` iterations, iteration `i`
pushing `prev[i]`. (Reading `previous_y_path[i]` past its end is undefined behaviour in the
source; the model reads `0` there.) -/
def copyPrevious (n : Nat) (prev : List ℚ) : List ℚ :=
  (List.range n).map (fun i => prev.getD i 0)

/-- Number of iterations of `for (int i = 1; i <= 50 - previous_x_path.size(); i++)`
(vehicle.cpp 141): the bound is computed in `size_t`, so it wraps modulo `2^64` when the
carried-over path is longer than 50. -/
def newSampleCount (n : Nat) : Nat :=
  (50 + 2 ^ 64 - n % 2 ^ 64) % 2 ^ 64

/-- The resampling loop of vehicle.cpp 141-160: `count` iterations starting from the given
`x_add_on`; returns the pushed `(x_point, y_point)` pairs in order. -/
def resampleLoop (P : Params) (H : Helpers) (s : ℚ → ℚ) (target_x target_distance r_vel : ℚ)
    (ref_x ref_y ref_yaw : ℚ) : Nat → ℚ → List (ℚ × ℚ)
  | 0, _ => []
  | count + 1, x_add_on =>
    let N := target_distance / (P.DELTA_T * r_vel * P.MPH2MS)
    let x_point := x_add_on + target_x / N
    let y_point := s x_point
    let x_ref := x_point
    let y_ref := y_point
    let x_glob := (x_ref * H.cos ref_yaw - y_ref * H.sin ref_yaw) + ref_x
    let y_glob := (x_ref * H.sin ref_yaw + y_ref * H.cos ref_yaw) + ref_y
    (x_glob, y_glob) ::
      resampleLoop P H s target_x target_distance r_vel ref_x ref_y ref_yaw count x_point

/-- `Vehicle::generateXYTrajectory` (vehicle.cpp 61-161). The output vectors `next_vals_x`,
`next_vals_y` are passed in (the source appends to them) and returned. -/
def generateXYTrajectory (P : Params) (H : Helpers) (ego : Vehicle)
    (next_vals_x next_vals_y previous_x_path previous_y_path : List ℚ)
    (map_s_waypoints map_x_waypoints map_y_waypoints : List ℚ)
    (r_vel : ℚ) (target_lane : Int) : List ℚ × List ℚ :=
  let car_x := ego.x
  let car_y := ego.y
  let car_s := ego.s
  let car_yaw := ego.yaw
  let n := previous_x_path.length
  -- initialise trajectory with previous path
  let vals_x := next_vals_x ++ copyPrevious n previous_x_path
  let vals_y := next_vals_y ++ copyPrevious n previous_y_path
  -- past points: (ptsx, ptsy, ref_x, ref_y, ref_yaw)
  let past : List ℚ × List ℚ × ℚ × ℚ × ℚ :=
    if n < 2 then
      ([car_x], [car_y], car_x, car_y, H.deg2rad car_yaw)
    else
      let ref_x := previous_x_path.getD (n - 1) 0
      let ref_y := previous_y_path.getD (n - 1) 0
      let ref_x_prev := previous_x_path.getD (n - 2) 0
      let ref_y_prev := previous_y_path.getD (n - 2) 0
      ([ref_x_prev, ref_x], [ref_y_prev, ref_y], ref_x, ref_y,
        H.atan2 (ref_y - ref_y_prev) (ref_x - ref_x_prev))
  let ref_x := past.2.2.1
  let ref_y := past.2.2.2.1
  let ref_yaw := past.2.2.2.2
  -- future points
  let lane_d := (P.LANE_WIDTH / 2) + P.LANE_WIDTH * (target_lane : ℚ)
  let next_wp0 :=
    H.getXY (car_s + P.TRAJ_HORIZ_1) lane_d map_s_waypoints map_x_waypoints map_y_waypoints
  let next_wp1 :=
    H.getXY (car_s + P.TRAJ_HORIZ_2) lane_d map_s_waypoints map_x_waypoints map_y_waypoints
  let next_wp2 :=
    H.getXY (car_s + P.TRAJ_HORIZ_3) lane_d map_s_waypoints map_x_waypoints map_y_waypoints
  let ptsx := past.1 ++ [next_wp0.1, next_wp1.1, next_wp2.1]
  let ptsy := past.2.1 ++ [next_wp0.2, next_wp1.2, next_wp2.2]
  -- shift in car's reference frame
  let shifted : List (ℚ × ℚ) :=
    (List.range ptsx.length).map (fun i =>
      let shift_x := ptsx.getD i 0 - ref_x
      let shift_y := ptsy.getD i 0 - ref_y
      (shift_x * H.cos (0 - ref_yaw) - shift_y * H.sin (0 - ref_yaw),
       shift_x * H.sin (0 - ref_yaw) + shift_y * H.cos (0 - ref_yaw)))
  -- spline through the anchors
  let s := H.spline (shifted.map Prod.fst) (shifted.map Prod.snd)
  let target_x := P.TRAJ_HORIZ_1
  let target_y := s target_x
  let target_distance := H.distance 0 0 target_x target_y
  let added :=
    resampleLoop P H s target_x target_distance r_vel ref_x ref_y ref_yaw (newSampleCount n) 0
  (vals_x ++ added.map Prod.fst, vals_y ++ added.map Prod.snd)

/-! ## Collision scan of `implementNextTrajectory` -/

/-- `std::map::operator[]` followed by `.at(0)` as used in `predictions[j].at(0)`: a missing
key is inserted with an empty vector, on which `.at(0)` throws; so does an empty vector that
is present. The result is the whole vector when it has a first element. -/
def predictionsAt (predictions : List (Int × List Vehicle)) (j : Nat) :
    Option (Vehicle × List Vehicle) :=
  match predictions.lookup (j : Int) with
  | none => none
  | some [] => none
  | some (first :: rest) => some (first, first :: rest)

/-- Innermost `while` (vehicle.cpp 283-292 and 352-361), entered with the collision flag
`false` and `k = 0`: the flag after the loop, for the path sample `(px, py)`. -/
def scanSnapshots (H : Helpers) (ref_dist px py : ℚ) : List Vehicle → Bool
  | [] => false
  | snap :: rest =>
    if H.distance px py snap.x snap.y < ref_dist then true
    else scanSnapshots H ref_dist px py rest

/-- Middle `while` (vehicle.cpp 279-294 and 348-363) over the samples `i` of the generated
trajectory, entered with the flag `false` and `i = 0`. -/
def scanSamples (H : Helpers) (ref_dist : ℚ) (pred : List Vehicle) :
    List ℚ → List ℚ → Bool
  | [], _ => false
  | px :: xs, ys =>
    if scanSnapshots H ref_dist px (ys.headD 0) pred = true then true
    else scanSamples H ref_dist pred xs ys.tail

/-- Outer `while` (vehicle.cpp 272-297 and 341-366) over `j`, entered with the flag `false`.
`remaining` counts the iterations left, `predictions.size() - j`. -/
def scanPredictions (H : Helpers) (ref_dist : ℚ) (predictions : List (Int × List Vehicle))
    (current_lane target_lane : Int) (trajX trajY : List ℚ) : Nat → Nat → Option Bool
  | 0, _ => some false
  | remaining + 1, j =>
    match predictionsAt predictions j with
    | none => none
    | some (first, pred) =>
      if first.lane = current_lane ∨ first.lane = target_lane then
        if scanSamples H ref_dist pred trajX trajY = true then some true
        else scanPredictions H ref_dist predictions current_lane target_lane trajX trajY
          remaining (j + 1)
      else
        scanPredictions H ref_dist predictions current_lane target_lane trajX trajY
          remaining (j + 1)

/-- Reference distance of the collision check,
`(REF_SPEED / std::max(r_vel, 0.1)) * REF_DIST_LC`. -/
def refDistLC (P : Params) (r_vel : ℚ) : ℚ :=
  (P.REF_SPEED / max r_vel (1/10)) * P.REF_DIST_LC

/-- The collision flag `coll_event_LCL` / `coll_event_LCR` computed for a lane-change
candidate: the three nested loops started at `j = 0`; `none` when `.at` throws. -/
def collisionEvent (P : Params) (H : Helpers) (predictions : List (Int × List Vehicle))
    (r_vel : ℚ) (current_lane target_lane : Int) (trajX trajY : List ℚ) : Option Bool :=
  scanPredictions H (refDistLC P r_vel) predictions current_lane target_lane trajX trajY
    predictions.length 0

/-! ## `Vehicle::implementNextTrajectory` -/

/-- Local variables of `implementNextTrajectory` that live across the loop over the
successor states. The maps `genericTrajsX/Y` are keyed by `num_traj = 0, 1, 2, ...`, so they
are the lists of their values; `num_traj` is their length. -/
structure LoopState where
  genericTrajsX : List (List ℚ)
  genericTrajsY : List (List ℚ)
  costs : List ℚ
  target_lanes : List Int
  target_lane : Int
  current_KL_vel : ℚ
  current_LCL_vel : ℚ
  current_LCR_vel : ℚ
  init_acc_over : Bool

/-- The inputs of one planning cycle that the loop body only reads. -/
structure Cycle where
  vehicles : List (Int × Vehicle)
  predictions : List (Int × List Vehicle)
  previous_x_path : List ℚ
  previous_y_path : List ℚ
  map_s_waypoints : List ℚ
  map_x_waypoints : List ℚ
  map_y_waypoints : List ℚ
  r_vel : ℚ
  current_lane : Int

/-- Body of the loop over the successor states (vehicle.cpp 207-378) for one state. -/
def candidateStep (P : Params) (H : Helpers) (ego : Vehicle) (c : Cycle)
    (st : LoopState) (it : String) : Option LoopState :=
  if it = "KL" then
    let reg := regulateVelocity P ego c.vehicles st.current_KL_vel c.current_lane
      c.current_lane c.previous_x_path st.init_acc_over
    let traj := generateXYTrajectory P H ego [] [] c.previous_x_path c.previous_y_path
      c.map_s_waypoints c.map_x_waypoints c.map_y_waypoints reg.1 c.current_lane
    some { st with
      genericTrajsX := st.genericTrajsX ++ [traj.1]
      genericTrajsY := st.genericTrajsY ++ [traj.2]
      costs := st.costs ++ [if reg.1 < c.r_vel then 1 else 0]
      target_lanes := st.target_lanes ++ [c.current_lane]
      current_KL_vel := reg.1
      init_acc_over := reg.2 }
  else if it = "LCL" then
    let target_lane := if c.current_lane > 0 then c.current_lane - 1 else st.target_lane
    let reg :=
      if c.current_lane > 0 then
        regulateVelocity P ego c.vehicles st.current_LCL_vel c.current_lane target_lane
          c.previous_x_path st.init_acc_over
      else (st.current_LCL_vel, st.init_acc_over)
    let traj : List ℚ × List ℚ :=
      if c.current_lane > 0 then
        generateXYTrajectory P H ego [] [] c.previous_x_path c.previous_y_path
          c.map_s_waypoints c.map_x_waypoints c.map_y_waypoints reg.1 target_lane
      else ([], [])
    match collisionEvent P H c.predictions c.r_vel c.current_lane target_lane traj.1 traj.2 with
    | none => none
    | some coll_event_LCL =>
      some { st with
        genericTrajsX := st.genericTrajsX ++ [traj.1]
        genericTrajsY := st.genericTrajsY ++ [traj.2]
        costs := st.costs ++ [if coll_event_LCL = true then 11/10 else 1/10]
        target_lanes := st.target_lanes ++ [target_lane]
        target_lane := target_lane
        current_LCL_vel := reg.1
        init_acc_over := reg.2 }
  else if it = "LCR" then
    let target_lane := if c.current_lane < 2 then c.current_lane + 1 else st.target_lane
    let reg :=
      if c.current_lane < 2 then
        regulateVelocity P ego c.vehicles st.current_LCR_vel c.current_lane target_lane
          c.previous_x_path st.init_acc_over
      else (st.current_LCR_vel, st.init_acc_over)
    let traj : List ℚ × List ℚ :=
      if c.current_lane < 2 then
        generateXYTrajectory P H ego [] [] c.previous_x_path c.previous_y_path
          c.map_s_waypoints c.map_x_waypoints c.map_y_waypoints reg.1 target_lane
      else ([], [])
    match collisionEvent P H c.predictions c.r_vel c.current_lane target_lane traj.1 traj.2 with
    | none => none
    | some coll_event_LCR =>
      some { st with
        genericTrajsX := st.genericTrajsX ++ [traj.1]
        genericTrajsY := st.genericTrajsY ++ [traj.2]
        costs := st.costs ++ [if coll_event_LCR = true then 6/5 else 1/5]
        target_lanes := st.target_lanes ++ [target_lane]
        target_lane := target_lane
        current_LCR_vel := reg.1
        init_acc_over := reg.2 }
  else
    some st

/-- The loop over the successor states, in order. -/
def candidateLoop (P : Params) (H : Helpers) (ego : Vehicle) (c : Cycle) :
    List String → LoopState → Option LoopState
  | [], st => some st
  | it :: rest, st =>
    match candidateStep P H ego c st it with
    | none => none
    | some st1 => candidateLoop P H ego c rest st1

/-- The local variables before the loop (vehicle.cpp 187-203). -/
def initialLoopState (c : Cycle) (init_acc_over : Bool) : LoopState :=
  { genericTrajsX := [], genericTrajsY := [], costs := [], target_lanes := [],
    target_lane := c.current_lane,
    current_KL_vel := c.r_vel, current_LCL_vel := c.r_vel, current_LCR_vel := c.r_vel,
    init_acc_over := init_acc_over }

/-- Scan of `std::min_element` after the first element: `best` is the index of the smallest
element seen so far, `bestVal` its value, `i` the index of the head of the remaining list. -/
def minElementFrom : List ℚ → Nat → Nat → ℚ → Nat
  | [], _, best, _ => best
  | x :: xs, i, best, bestVal =>
    if x < bestVal then minElementFrom xs (i + 1) i x
    else minElementFrom xs (i + 1) best bestVal

/-- Index returned by `min_element(costs.begin(), costs.end()) - costs.begin()`: the first
position of a smallest element, `0` for an empty vector. -/
def minElementIndex : List ℚ → Nat
  | [] => 0
  | x :: xs => minElementFrom xs 1 0 x

/-- What a completed cycle leaves behind: the ego vehicle with its new `state` and
`goal_lane`, the output path, and the reference parameters `r_vel`, `init_acc_over`. -/
structure Outcome where
  ego : Vehicle
  next_vals_x : List ℚ
  next_vals_y : List ℚ
  r_vel : ℚ
  init_acc_over : Bool

/-- The commit step (vehicle.cpp 380-397) on the variables left by the loop; every `.at` is
a checked access. -/
def commit (ego : Vehicle) (c : Cycle) (states : List String) (st : LoopState) :
    Option Outcome :=
  let min_cost_index := minElementIndex st.costs
  match st.genericTrajsX.get? min_cost_index, st.genericTrajsY.get? min_cost_index,
      states.get? min_cost_index, st.target_lanes.get? min_cost_index with
  | some next_vals_x, some next_vals_y, some state, some goal_lane =>
    some
      { ego := { ego with state := state, goal_lane := goal_lane }
        next_vals_x := next_vals_x
        next_vals_y := next_vals_y
        r_vel :=
          if state = "KL" then st.current_KL_vel
          else if state = "LCL" then st.current_LCL_vel
          else if state = "LCR" then st.current_LCR_vel
          else c.r_vel
        init_acc_over := st.init_acc_over }
  | _, _, _, _ => none

/-- `Vehicle::implementNextTrajectory` (vehicle.cpp 180-398): `none` when an exception
leaves the function, otherwise the committed outcome. -/
def implementNextTrajectory (P : Params) (H : Helpers) (ego : Vehicle) (c : Cycle)
    (init_acc_over : Bool) : Option Outcome :=
  let states := successorStates ego
  match candidateLoop P H ego c states (initialLoopState c init_acc_over) with
  | none => none
  | some st => commit ego c states st

/-! ## `Vehicle::generatePredictions` -/

/-- Values of the members `goal_lane` and `lanes_available` of a vehicle built by the
constructor with parameters, which does not assign them: they come from the class
declaration in `vehicle.h`. -/
structure MemberDefaults where
  goal_lane : Int
  lanes_available : Int

/-- The constructor with parameters (vehicle.cpp 31-41). -/
def constructVehicle (D : MemberDefaults) (v_lane : Int) (s d v a x y yaw : ℚ)
    (state : String) : Vehicle :=
  { lane := v_lane, s := s, d := d, v := v, a := a, x := x, y := y, yaw := yaw,
    state := state, goal_lane := D.goal_lane, lanes_available := D.lanes_available }

/-- The loop of `generatePredictions` (vehicle.cpp 542-551): `remaining` iterations are left
and `curr_s` is the position reached; returns the vehicles pushed, in order. -/
def predictionLoop (P : Params) (H : Helpers) (D : MemberDefaults) (self : Vehicle)
    (map_s_waypoints map_x_waypoints map_y_waypoints : List ℚ) : Nat → ℚ → List Vehicle
  | 0, _ => []
  | remaining + 1, curr_s =>
    let next_s := curr_s + self.v * P.DELTA_T
    let next_xy := H.getXY next_s self.d map_s_waypoints map_x_waypoints map_y_waypoints
    constructVehicle D self.lane next_s self.d self.v 0 next_xy.1 next_xy.2 (-1) "CS" ::
      predictionLoop P H D self map_s_waypoints map_x_waypoints map_y_waypoints remaining next_s

/-- `Vehicle::generatePredictions` (vehicle.cpp 535-554). The result is the pair of the
object `*this` after the call and the returned vector; the loop `for (i = 0; i < pred_size;
++i)` runs `pred_size` times, and not at all for a negative `pred_size`. -/
def generatePredictions (P : Params) (H : Helpers) (D : MemberDefaults) (self : Vehicle)
    (map_s_waypoints map_x_waypoints map_y_waypoints : List ℚ) (pred_size : Int) :
    Vehicle × List Vehicle :=
  (self, predictionLoop P H D self map_s_waypoints map_x_waypoints map_y_waypoints
    pred_size.toNat self.s)

/-! ## Consecutive calls of the regulator -/

/-- The arguments of one call of `regulateVelocity` other than the two reference
parameters `ref_vel` and `init_acc_over`. -/
structure RegulateCall where
  ego : Vehicle
  vehicles : List (Int × Vehicle)
  current_lane : Int
  target_lane : Int
  previous_path_x : List ℚ

/-- Consecutive calls of `regulateVelocity`, each one starting from the reference speed and
the latch left by the previous one: the pairs left after each call, in order. -/
def regulateRun (P : Params) : List RegulateCall → ℚ × Bool → List (ℚ × Bool)
  | [], _ => []
  | call :: rest, (ref_vel, init_acc_over) =>
    let r := regulateVelocity P call.ego call.vehicles ref_vel call.current_lane
      call.target_lane call.previous_path_x init_acc_over
    r :: regulateRun P rest r

/-- A tracked vehicle that can influence the regulator: its lane is the current or the
target lane and its projected position is strictly ahead of the ego by less than 30. -/
def relevantVehicle (P : Params) (ego : Vehicle) (current_lane target_lane : Int) (n : Nat)
    (veh : Vehicle) : Prop :=
  (veh.lane = current_lane ∨ veh.lane = target_lane) ∧
    0 < projectedGap P ego n veh ∧ projectedGap P ego n veh < 30

instance (P : Params) (ego : Vehicle) (current_lane target_lane : Int) (n : Nat)
    (veh : Vehicle) : Decidable (relevantVehicle P ego current_lane target_lane n veh) := by
  unfold relevantVehicle; infer_instance

/-! ## Predicates used to state the properties of the selector -/

/-- The prediction map has exactly the keys `0 .. size-1`, each with a non-empty sequence:
every access `predictions[j].at(0)` of the collision scan succeeds. -/
def predictionsIndexed (predictions : List (Int × List Vehicle)) : Prop :=
  ∀ j < predictions.length, (predictionsAt predictions j).isSome = true

instance (predictions : List (Int × List Vehicle)) :
    Decidable (predictionsIndexed predictions) := by
  unfold predictionsIndexed; infer_instance

/-- Some sample `i` of the path `(trajX, trajY)` and some snapshot of `pred` are at distance
below `ref_dist`. -/
def pathNear (H : Helpers) (ref_dist : ℚ) (pred : List Vehicle) (trajX trajY : List ℚ) : Prop :=
  ∃ i < trajX.length, ∃ snap ∈ pred,
    H.distance (trajX.getD i 0) (trajY.getD i 0) snap.x snap.y < ref_dist

/-- The existential of the specification: some tracked vehicle (an entry of the prediction
map, its lane read from its first snapshot) in the current or target lane has a snapshot
closer than `ref_dist` to some sample of the path. -/
def collisionSpec (H : Helpers) (ref_dist : ℚ) (predictions : List (Int × List Vehicle))
    (current_lane target_lane : Int) (trajX trajY : List ℚ) : Prop :=
  ∃ e ∈ predictions, ∃ first ∈ e.2.head?,
    (first.lane = current_lane ∨ first.lane = target_lane) ∧ pathNear H ref_dist e.2 trajX trajY

/-- The state names handled by the loop body of `implementNextTrajectory`. -/
def knownState (it : String) : Prop :=
  it = "KL" ∨ it = "LCL" ∨ it = "LCR"

/-- Position of a state in the preference order KL, LCL, LCR. -/
def stateRank (it : String) : Nat :=
  if it = "KL" then 0 else if it = "LCL" then 1 else 2

/-- The values the variable `target_lane` can hold: `current_lane`, or `current_lane - 1`
after a left candidate whose guard `current_lane > 0` passed, or `current_lane + 1` after a
right candidate whose guard `current_lane < 2` passed. -/
def targetNear (current_lane target_lane : Int) : Prop :=
  target_lane = current_lane ∨ (0 < current_lane ∧ target_lane = current_lane - 1) ∨
    (current_lane < 2 ∧ target_lane = current_lane + 1)

/-- What the loop leaves at index `i` for a KL candidate: the regulator ran for the pair
(current lane, current lane) from the incoming speed, the path was generated with the
regulated speed, and the cost is 1 when the regulated speed is below the incoming one,
0 otherwise. -/
def rowKL (P : Params) (H : Helpers) (ego : Vehicle) (c : Cycle) (init_acc_over : Bool)
    (st : LoopState) (i : Nat) : Prop :=
  st.current_KL_vel = (regulateVelocity P ego c.vehicles c.r_vel c.current_lane c.current_lane
      c.previous_x_path init_acc_over).1 ∧
  st.target_lanes[i]? = some c.current_lane ∧
  st.genericTrajsX[i]? = some (generateXYTrajectory P H ego [] [] c.previous_x_path
      c.previous_y_path c.map_s_waypoints c.map_x_waypoints c.map_y_waypoints
      st.current_KL_vel c.current_lane).1 ∧
  st.genericTrajsY[i]? = some (generateXYTrajectory P H ego [] [] c.previous_x_path
      c.previous_y_path c.map_s_waypoints c.map_x_waypoints c.map_y_waypoints
      st.current_KL_vel c.current_lane).2 ∧
  st.costs[i]? = some (if st.current_KL_vel < c.r_vel then 1 else 0)

/-- What the loop leaves at index `i` for a lane-change candidate with lane guard `guard`,
guarded target lane `tgt`, speed variable `vel` and costs `cHi` (collision) / `cLo`. -/
def rowLC (P : Params) (H : Helpers) (ego : Vehicle) (c : Cycle) (init_acc_over : Bool)
    (st : LoopState) (i : Nat) (guard : Prop) (tgt : Int) (vel cHi cLo : ℚ) : Prop :=
  ∃ tl tx ty coll,
    st.target_lanes[i]? = some tl ∧ st.genericTrajsX[i]? = some tx ∧
    st.genericTrajsY[i]? = some ty ∧
    collisionEvent P H c.predictions c.r_vel c.current_lane tl tx ty = some coll ∧
    st.costs[i]? = some (if coll = true then cHi else cLo) ∧
    targetNear c.current_lane tl ∧
    (guard → tl = tgt ∧
      vel = (regulateVelocity P ego c.vehicles c.r_vel c.current_lane tgt
        c.previous_x_path init_acc_over).1 ∧
      tx = (generateXYTrajectory P H ego [] [] c.previous_x_path c.previous_y_path
        c.map_s_waypoints c.map_x_waypoints c.map_y_waypoints vel tgt).1 ∧
      ty = (generateXYTrajectory P H ego [] [] c.previous_x_path c.previous_y_path
        c.map_s_waypoints c.map_x_waypoints c.map_y_waypoints vel tgt).2) ∧
    (¬ guard → tx = [] ∧ ty = [] ∧ vel = c.r_vel)

/-- Invariant of the loop over the successor states: `done` is the list of states already
handled and `st` the local variables after them. -/
structure LoopInv (P : Params) (H : Helpers) (ego : Vehicle) (c : Cycle)
    (init_acc_over : Bool) (done : List String) (st : LoopState) : Prop where
  lenX : st.genericTrajsX.length = done.length
  lenY : st.genericTrajsY.length = done.length
  lenC : st.costs.length = done.length
  lenT : st.target_lanes.length = done.length
  freshKL : "KL" ∉ done → st.current_KL_vel = c.r_vel
  freshLCL : "LCL" ∉ done → st.current_LCL_vel = c.r_vel
  freshLCR : "LCR" ∉ done → st.current_LCR_vel = c.r_vel
  near : targetNear c.current_lane st.target_lane
  kl : ∀ i, done[i]? = some "KL" → rowKL P H ego c init_acc_over st i
  lcl : ∀ i, done[i]? = some "LCL" →
    rowLC P H ego c init_acc_over st i (c.current_lane > 0) (c.current_lane - 1)
      st.current_LCL_vel (11/10) (1/10)
  lcr : ∀ i, done[i]? = some "LCR" →
    rowLC P H ego c init_acc_over st i (c.current_lane < 2) (c.current_lane + 1)
      st.current_LCR_vel (6/5) (1/5)

/-- A candidate is penalised: it is the KL candidate and the regulator reduced its speed
below the incoming reference speed, or it is a lane-change candidate (at index `j` of the
loop) for which the collision scan on its own path and target lane reports a collision. -/
def candidatePenalised (P : Params) (H : Helpers) (ego : Vehicle) (c : Cycle)
    (init_acc_over : Bool) (st : LoopState) (it : String) (j : Nat) : Prop :=
  (it = "KL" ∧
    (regulateVelocity P ego c.vehicles c.r_vel c.current_lane c.current_lane
      c.previous_x_path init_acc_over).1 < c.r_vel) ∨
  ((it = "LCL" ∨ it = "LCR") ∧
    collisionEvent P H c.predictions c.r_vel c.current_lane (st.target_lanes.getD j 0)
      (st.genericTrajsX.getD j []) (st.genericTrajsY.getD j []) = some true)

/-! ## Sample values used by the concrete evaluations -/

/-- Sample values for the constants of `vehicle.h` (the header is not part of the translated
file); they are only used to evaluate the definitions on concrete inputs. -/
def sampleParams : Params :=
  { DELTA_T := 1/50, REF_SPEED := 99/2, REF_SPEED_CHANGE := 28/125, EMG_SPEED_CHANGE := 1/2,
    REF_DIST_LC := 10, LANE_WIDTH := 4, MPH2MS := 447/1000,
    TRAJ_HORIZ_1 := 30, TRAJ_HORIZ_2 := 60, TRAJ_HORIZ_3 := 90 }

/-- A vehicle with the given lane, position, speed, state, goal lane and lane count; the
remaining fields are zero. -/
def mkVehicle (lane : Int) (s v : ℚ) (state : String) (goal_lane lanes_available : Int) :
    Vehicle :=
  { lane := lane, s := s, d := 0, v := v, a := 0, x := 0, y := 0, yaw := 0,
    state := state, goal_lane := goal_lane, lanes_available := lanes_available }

/-- Stand-ins for the helper functions on a straight road along the x axis with heading 0:
the coordinate map is the identity, the fitted curve is flat, and the distance is the sum of
the coordinate differences (the Euclidean distance for points on a common axis). They are
only used to evaluate the definitions on concrete inputs. -/
def sampleHelpers : Helpers :=
  { getXY := fun s d _ _ _ => (s, d)
    distance := fun x1 y1 x2 y2 => |x2 - x1| + |y2 - y1|
    deg2rad := fun _ => 0
    atan2 := fun _ _ => 0
    cos := fun _ => 1
    sin := fun _ => 0
    spline := fun _ _ _ => 0 }

/-- A cycle without tracked vehicles, predictions, carried-over path or waypoints. -/
def emptyCycle (r_vel : ℚ) (current_lane : Int) : Cycle :=
  { vehicles := [], predictions := [], previous_x_path := [], previous_y_path := [],
    map_s_waypoints := [], map_x_waypoints := [], map_y_waypoints := [],
    r_vel := r_vel, current_lane := current_lane }

/-- A cycle for an ego at `s = 100` in lane 1 with one tracked vehicle in lane 1 at `s + 15`
with speed 0, no predictions, no carried-over path and no waypoints. -/
def leadVehicleCycle (r_vel : ℚ) : Cycle :=
  { vehicles := [(0, mkVehicle 1 115 0 "CS" 1 3)], predictions := [],
    previous_x_path := [], previous_y_path := [],
    map_s_waypoints := [], map_x_waypoints := [], map_y_waypoints := [],
    r_vel := r_vel, current_lane := 1 }

/-! ## The successor-state machine -/

/-- C1: for an ego vehicle with `lane` in `[0, lanes_available)` and any `goal_lane`,
`successorStates` returns exactly: in state KL, `KL` followed by `LCL` iff `lane > 0`,
followed by `LCR` iff `lane < lanes_available - 1`; in state LCL, `KL` iff `lane == goal_lane`
followed by `LCL` iff `lane > 0`; in state LCR, `KL` iff `lane == goal_lane` followed by `LCR`
iff `lane < lanes_available - 1`. `KL`, when present, is first, and no state occurs twice. -/
theorem successorStates_exact (ego : Vehicle)
    (h0 : 0 ≤ ego.lane) (h1 : ego.lane < ego.lanes_available) :
    (ego.state = "KL" → successorStates ego =
        ["KL"] ++ (if ego.lane > 0 then ["LCL"] else [])
          ++ (if ego.lane < ego.lanes_available - 1 then ["LCR"] else [])) ∧
    (ego.state = "LCL" → successorStates ego =
        (if ego.lane = ego.goal_lane then ["KL"] else [])
          ++ (if ego.lane > 0 then ["LCL"] else [])) ∧
    (ego.state = "LCR" → successorStates ego =
        (if ego.lane = ego.goal_lane then ["KL"] else [])
          ++ (if ego.lane < ego.lanes_available - 1 then ["LCR"] else [])) ∧
    ("KL" ∈ successorStates ego → (successorStates ego).head? = some "KL") ∧
    (successorStates ego).Nodup := by
  have e0 : (ego.lane ≠ 0) ↔ (ego.lane > 0) := by omega
  have e1 : (ego.lane ≠ ego.lanes_available - 1) ↔ (ego.lane < ego.lanes_available - 1) := by
    omega
  refine ⟨?_, ?_, ?_, ?_, ?_⟩
  · intro hs
    simp only [successorStates, hs, if_true, e0, e1]
  · intro hs
    have : ¬ ("LCL" = "KL") := by decide
    simp only [successorStates, hs, this, if_true, if_false, e0]
  · intro hs
    have a : ¬ ("LCR" = "KL") := by decide
    have b : ¬ ("LCR" = "LCL") := by decide
    simp only [successorStates, hs, a, b, if_true, if_false, e1]
  · unfold successorStates
    split_ifs <;> simp
  · unfold successorStates
    split_ifs <;> simp

/-- Evaluation of C1 in lane 1 of 3, state KL. -/
theorem successorStates_exact_witness :
    (0 : Int) ≤ (mkVehicle 1 0 0 "KL" 1 3).lane ∧
    (mkVehicle 1 0 0 "KL" 1 3).lane < (mkVehicle 1 0 0 "KL" 1 3).lanes_available ∧
    successorStates (mkVehicle 1 0 0 "KL" 1 3) = ["KL", "LCL", "LCR"] ∧
    (successorStates (mkVehicle 1 0 0 "KL" 1 3)).Nodup :=
  ⟨by decide, by decide,
    ((successorStates_exact (mkVehicle 1 0 0 "KL" 1 3) (by decide) (by decide)).1 rfl).trans
      (by decide),
    (successorStates_exact (mkVehicle 1 0 0 "KL" 1 3) (by decide) (by decide)).2.2.2.2⟩

/-- C2 as stated fails: in state LCL at lane 0 of 3 with `goal_lane = 1` the list of
successor states is empty. -/
theorem successorStates_empty_counterexample :
    ((mkVehicle 0 0 0 "LCL" 1 3).state = "KL" ∨ (mkVehicle 0 0 0 "LCL" 1 3).state = "LCL" ∨
        (mkVehicle 0 0 0 "LCL" 1 3).state = "LCR") ∧
    (0 : Int) ≤ (mkVehicle 0 0 0 "LCL" 1 3).lane ∧
    (mkVehicle 0 0 0 "LCL" 1 3).lane < (mkVehicle 0 0 0 "LCL" 1 3).lanes_available ∧
    successorStates (mkVehicle 0 0 0 "LCL" 1 3) = [] := by
  refine ⟨Or.inr (Or.inl rfl), by decide, by decide, by decide⟩

/-- C2 (amended): for an ego vehicle in state KL, LCL or LCR with `lane` in
`[0, lanes_available)`, `successorStates` is non-empty exactly when the state is KL, or
`lane == goal_lane`, or the state is LCL and `lane > 0`, or the state is LCR and
`lane < lanes_available - 1`. -/
theorem successorStates_nonempty_iff (ego : Vehicle)
    (hs : ego.state = "KL" ∨ ego.state = "LCL" ∨ ego.state = "LCR")
    (h0 : 0 ≤ ego.lane) (h1 : ego.lane < ego.lanes_available) :
    successorStates ego ≠ [] ↔
      (ego.state = "KL" ∨ ego.lane = ego.goal_lane ∨ (ego.state = "LCL" ∧ ego.lane > 0) ∨
        (ego.state = "LCR" ∧ ego.lane < ego.lanes_available - 1)) := by
  have a : ¬ ("LCR" = "KL") := by decide
  have b : ¬ ("LCR" = "LCL") := by decide
  have c : ¬ ("LCL" = "KL") := by decide
  have d : ¬ ("LCL" = "LCR") := by decide
  have e0 : (ego.lane = 0) ↔ ¬ (ego.lane > 0) := by omega
  have e1 : (ego.lane = ego.lanes_available - 1) ↔ ¬ (ego.lane < ego.lanes_available - 1) := by
    omega
  rcases hs with hs | hs | hs
  · simp [successorStates, hs]
  · simp only [successorStates, hs, c, d, if_false, if_true, false_and, or_false, false_or,
      true_and]
    by_cases hg : ego.lane = ego.goal_lane <;> by_cases hl : ego.lane > 0 <;>
      simp [hg, hl, e0]
  · simp only [successorStates, hs, a, b, if_false, if_true, false_and, or_false, false_or,
      true_and]
    by_cases hg : ego.lane = ego.goal_lane <;>
      by_cases hl : ego.lane < ego.lanes_available - 1 <;>
      simp [hg, hl, e1]

/-- Evaluation of the amended C2 in state LCL at lane 1 of 3 with goal lane 0. -/
theorem successorStates_nonempty_iff_witness :
    ((mkVehicle 1 0 0 "LCL" 0 3).state = "KL" ∨ (mkVehicle 1 0 0 "LCL" 0 3).state = "LCL" ∨
        (mkVehicle 1 0 0 "LCL" 0 3).state = "LCR") ∧
    (0 : Int) ≤ (mkVehicle 1 0 0 "LCL" 0 3).lane ∧
    (mkVehicle 1 0 0 "LCL" 0 3).lane < (mkVehicle 1 0 0 "LCL" 0 3).lanes_available ∧
    successorStates (mkVehicle 1 0 0 "LCL" 0 3) ≠ [] :=
  ⟨Or.inr (Or.inl rfl), by decide, by decide,
    (successorStates_nonempty_iff (mkVehicle 1 0 0 "LCL" 0 3) (Or.inr (Or.inl rfl))
      (by decide) (by decide)).2 (Or.inr (Or.inr (Or.inl ⟨rfl, by decide⟩)))⟩

/-! ## The longitudinal regulator -/

/-- The flags left by the loop of `regulateVelocity`: each one is set exactly when it was
set before or some vehicle of the current or target lane has its projected gap in the
corresponding window. -/
theorem regulateLoop_flags (P : Params) (ego : Vehicle) (current_lane target_lane : Int)
    (n : Nat) (vehicles : List (Int × Vehicle)) (a b : Bool) :
    ((regulateLoop P ego.s current_lane target_lane n vehicles (a, b)).1 = true ↔
        (a = true ∨ gapBelow P ego vehicles current_lane target_lane n 30)) ∧
    ((regulateLoop P ego.s current_lane target_lane n vehicles (a, b)).2 = true ↔
        (b = true ∨ gapBelow P ego vehicles current_lane target_lane n 10)) := by
  induction vehicles generalizing a b with
  | nil => simp [regulateLoop, gapBelow]
  | cons e rest ih =>
    obtain ⟨k, veh⟩ := e
    have hg : ∀ bound : ℚ, gapBelow P ego ((k, veh) :: rest) current_lane target_lane n bound ↔
        (((veh.lane = current_lane ∨ veh.lane = target_lane) ∧
          0 < projectedGap P ego n veh ∧ projectedGap P ego n veh < bound) ∨
          gapBelow P ego rest current_lane target_lane n bound) := by
      intro bound
      simp [gapBelow]
    have hpos : (veh.s + (n : ℚ) * P.DELTA_T * veh.v > ego.s) ↔ 0 < projectedGap P ego n veh := by
      unfold projectedGap
      constructor <;> intro h <;> linarith
    have hsub : veh.s + (n : ℚ) * P.DELTA_T * veh.v - ego.s = projectedGap P ego n veh := rfl
    simp only [regulateLoop]
    by_cases hl : veh.lane = current_lane ∨ veh.lane = target_lane
    · simp only [hl, if_true, hpos, hsub]
      rw [(ih _ _).1, (ih _ _).2, hg 30, hg 10]
      constructor
      · by_cases h30 : 0 < projectedGap P ego n veh ∧ projectedGap P ego n veh < 30
        · simp [h30, hl]
        · simp [h30]
      · by_cases h10 : 0 < projectedGap P ego n veh ∧ projectedGap P ego n veh < 10
        · simp [h10, hl]
        · simp [h10]
    · simp only [hl, if_false]
      rw [(ih _ _).1, (ih _ _).2, hg 30, hg 10]
      simp [hl]

/-- The flag `too_close` of the source is the `too_close` of the specification. -/
theorem regulateFlags_too_close (P : Params) (ego : Vehicle) (vehicles : List (Int × Vehicle))
    (current_lane target_lane : Int) (previous_path_x : List ℚ) :
    (regulateFlags P ego vehicles current_lane target_lane previous_path_x).1 = true ↔
      tooCloseSpec P ego vehicles current_lane target_lane previous_path_x.length := by
  unfold regulateFlags tooCloseSpec
  rw [(regulateLoop_flags P ego current_lane target_lane _ vehicles false false).1]
  simp

/-- The flag `emergency_brake` of the source is the `emergency` of the specification. -/
theorem regulateFlags_emergency (P : Params) (ego : Vehicle) (vehicles : List (Int × Vehicle))
    (current_lane target_lane : Int) (previous_path_x : List ℚ) :
    (regulateFlags P ego vehicles current_lane target_lane previous_path_x).2 = true ↔
      emergencySpec P ego vehicles current_lane target_lane previous_path_x.length := by
  unfold regulateFlags emergencySpec
  rw [(regulateLoop_flags P ego current_lane target_lane _ vehicles false false).2]
  simp

/-- The clamp at the end of `regulateVelocity` is `max 0`. -/
theorem clamp_eq_max (x : ℚ) : (if x ≤ 0 then (0 : ℚ) else x) = max 0 x := by
  split_ifs with h
  · exact (max_eq_left h).symm
  · exact (max_eq_right (le_of_lt (not_le.mp h))).symm

/-- C3: with `too_close` and `emergency` as the specification defines them (projected gap
in `(0, 30)`, resp. `(0, 10)`, for a vehicle of the current or target lane), the reference
speed left by `regulateVelocity` is `max(0, old - EMG_SPEED_CHANGE)` if too close and
emergency, `max(0, old - REF_SPEED_CHANGE)` if too close only, `max(0, old + REF_SPEED_CHANGE)`
if not too close and `old < REF_SPEED`, and `max(0, old)` otherwise. -/
theorem regulateVelocity_speed (P : Params) (ego : Vehicle) (vehicles : List (Int × Vehicle))
    (ref_vel : ℚ) (current_lane target_lane : Int) (previous_path_x : List ℚ)
    (init_acc_over : Bool) :
    (regulateVelocity P ego vehicles ref_vel current_lane target_lane previous_path_x
        init_acc_over).1 =
      regulateSpeedSpec P ego vehicles ref_vel current_lane target_lane
        previous_path_x.length := by
  have ht := regulateFlags_too_close P ego vehicles current_lane target_lane previous_path_x
  have he := regulateFlags_emergency P ego vehicles current_lane target_lane previous_path_x
  unfold regulateVelocity regulateSpeedSpec
  simp only [ht, he]
  by_cases h1 : tooCloseSpec P ego vehicles current_lane target_lane previous_path_x.length
  · by_cases h2 : emergencySpec P ego vehicles current_lane target_lane previous_path_x.length
    · simp only [h1, h2, if_true, ← clamp_eq_max]
      split_ifs <;> rfl
    · simp only [h1, h2, if_true, if_false, ← clamp_eq_max]
      split_ifs <;> rfl
  · by_cases h3 : ref_vel < P.REF_SPEED
    · simp only [h1, h3, if_true, if_false, ← clamp_eq_max]
      split_ifs <;> rfl
    · simp only [h1, h3, if_false, ← clamp_eq_max]
      split_ifs <;> rfl

/-- C4: whatever the tracked vehicles, lanes, carried-over path and incoming reference speed
(a negative one included), the reference speed left by `regulateVelocity` is at least zero. -/
theorem regulateVelocity_nonneg (P : Params) (ego : Vehicle) (vehicles : List (Int × Vehicle))
    (ref_vel : ℚ) (current_lane target_lane : Int) (previous_path_x : List ℚ)
    (init_acc_over : Bool) :
    0 ≤ (regulateVelocity P ego vehicles ref_vel current_lane target_lane previous_path_x
        init_acc_over).1 := by
  unfold regulateVelocity
  simp only []
  split_ifs <;> first | exact le_refl _ | exact le_of_lt (not_le.mp ‹_›)

/-- C10 as stated fails: with the ego at `s = 100` and one vehicle in lane 1 at `s + 15` with
speed 0, the flag `emergency_brake` stays `false` (the gap 15 is not below 10) and the
reference speed 20 does not become `max(0, 20 - EMG_SPEED_CHANGE)`. -/
theorem regulateVelocity_lead_at_15_counterexample :
    (mkVehicle 1 115 0 "CS" 1 3).lane = 1 ∧
    (mkVehicle 1 115 0 "CS" 1 3).s = (mkVehicle 1 100 0 "KL" 1 3).s + 15 ∧
    (mkVehicle 1 115 0 "CS" 1 3).v = 0 ∧
    (regulateFlags sampleParams (mkVehicle 1 100 0 "KL" 1 3)
        [(0, mkVehicle 1 115 0 "CS" 1 3)] 1 1 []).2 = false ∧
    (regulateVelocity sampleParams (mkVehicle 1 100 0 "KL" 1 3)
        [(0, mkVehicle 1 115 0 "CS" 1 3)] 20 1 1 [] true).1
      ≠ max 0 (20 - sampleParams.EMG_SPEED_CHANGE) := by
  refine ⟨rfl, ?_, rfl, ?_, ?_⟩
  · norm_num [mkVehicle]
  · norm_num [regulateFlags, regulateLoop, mkVehicle]
  · norm_num [regulateVelocity, regulateFlags, regulateLoop, mkVehicle, sampleParams]

/-- C10 (amended): with a tracked-vehicle set consisting of one vehicle in lane 1 at `s + 15`
with speed 0 (any carried-over path length), `regulateVelocity` for current lane 1 finds
`too_close` true and `emergency_brake` false, and the reference speed decreases by the small
step `REF_SPEED_CHANGE` (clamped at zero). -/
theorem regulateVelocity_lead_at_15 (P : Params) (ego veh : Vehicle) (id : Int)
    (ref_vel : ℚ) (target_lane : Int) (previous_path_x : List ℚ) (init_acc_over : Bool)
    (hl : veh.lane = 1) (hs : veh.s = ego.s + 15) (hv : veh.v = 0) :
    regulateFlags P ego [(id, veh)] 1 target_lane previous_path_x = (true, false) ∧
    (regulateVelocity P ego [(id, veh)] ref_vel 1 target_lane previous_path_x
        init_acc_over).1 = max 0 (ref_vel - P.REF_SPEED_CHANGE) := by
  have hf : regulateFlags P ego [(id, veh)] 1 target_lane previous_path_x = (true, false) := by
    simp only [regulateFlags, regulateLoop, hl, hs, hv, true_or, if_true, mul_zero, add_zero]
    norm_num
  refine ⟨hf, ?_⟩
  unfold regulateVelocity
  rw [hf]
  simp only [if_true, Bool.false_eq_true, if_false, ← clamp_eq_max]
  split_ifs <;> rfl

/-- Evaluation of the amended C10 with the ego at `s = 100` and reference speed 20. -/
theorem regulateVelocity_lead_at_15_witness :
    (mkVehicle 1 115 0 "CS" 1 3).lane = 1 ∧
    (mkVehicle 1 115 0 "CS" 1 3).s = (mkVehicle 1 100 0 "KL" 1 3).s + 15 ∧
    (mkVehicle 1 115 0 "CS" 1 3).v = 0 ∧
    regulateFlags sampleParams (mkVehicle 1 100 0 "KL" 1 3)
        [(0, mkVehicle 1 115 0 "CS" 1 3)] 1 1 [] = (true, false) ∧
    (regulateVelocity sampleParams (mkVehicle 1 100 0 "KL" 1 3)
        [(0, mkVehicle 1 115 0 "CS" 1 3)] 20 1 1 [] true).1
      = max 0 (20 - sampleParams.REF_SPEED_CHANGE) :=
  ⟨rfl, by norm_num [mkVehicle], rfl,
    regulateVelocity_lead_at_15 sampleParams (mkVehicle 1 100 0 "KL" 1 3)
      (mkVehicle 1 115 0 "CS" 1 3) 0 20 1 [] true rfl (by norm_num [mkVehicle]) rfl⟩

/-- The speed left by `regulateVelocity` does not depend on the incoming latch. -/
theorem regulateVelocity_fst_indep (P : Params) (ego : Vehicle)
    (vehicles : List (Int × Vehicle)) (ref_vel : ℚ) (current_lane target_lane : Int)
    (previous_path_x : List ℚ) (i1 i2 : Bool) :
    (regulateVelocity P ego vehicles ref_vel current_lane target_lane previous_path_x i1).1 =
    (regulateVelocity P ego vehicles ref_vel current_lane target_lane previous_path_x i2).1 := by
  unfold regulateVelocity
  simp only []
  split_ifs <;> rfl

/-! ## The path synthesiser -/

/-- The resampling loop pushes one sample per iteration. -/
theorem resampleLoop_length (P : Params) (H : Helpers) (s : ℚ → ℚ)
    (target_x target_distance r_vel ref_x ref_y ref_yaw : ℚ) (count : Nat) (x_add_on : ℚ) :
    (resampleLoop P H s target_x target_distance r_vel ref_x ref_y ref_yaw count
      x_add_on).length = count := by
  induction count generalizing x_add_on with
  | zero => rfl
  | succ k ih => simp [resampleLoop, ih]

/-- The copy loop pushes `n` samples. -/
theorem copyPrevious_length (n : Nat) (prev : List ℚ) : (copyPrevious n prev).length = n := by
  simp [copyPrevious]

/-- The copy loop over a vector of the same size reproduces it. -/
theorem copyPrevious_self (prev : List ℚ) : copyPrevious prev.length prev = prev := by
  apply List.ext_getElem
  · simp [copyPrevious]
  · intro i h1 h2
    simp [copyPrevious, List.getElem?_eq_getElem h2]

/-- Both output vectors of `generateXYTrajectory`, started empty, have
`previous_x_path.size()` carried-over samples plus one per iteration of the resampling loop. -/
theorem generateXYTrajectory_length (P : Params) (H : Helpers) (ego : Vehicle)
    (px py ms mx my : List ℚ) (r_vel : ℚ) (target_lane : Int) :
    (generateXYTrajectory P H ego [] [] px py ms mx my r_vel target_lane).1.length =
        px.length + newSampleCount px.length ∧
    (generateXYTrajectory P H ego [] [] px py ms mx my r_vel target_lane).2.length =
        px.length + newSampleCount px.length := by
  simp [generateXYTrajectory, copyPrevious_length, resampleLoop_length]

/-- The loop bound does not wrap for a carried-over path of at most 50 samples. -/
theorem newSampleCount_le (n : Nat) (h : n ≤ 50) : newSampleCount n = 50 - n := by
  unfold newSampleCount
  omega

/-- A generated trajectory is never empty. -/
theorem generateXYTrajectory_ne_nil (P : Params) (H : Helpers) (ego : Vehicle)
    (px py ms mx my : List ℚ) (r_vel : ℚ) (target_lane : Int) :
    (generateXYTrajectory P H ego [] [] px py ms mx my r_vel target_lane).1 ≠ [] := by
  intro h
  have hl := (generateXYTrajectory_length P H ego px py ms mx my r_vel target_lane).1
  rw [h] at hl
  simp only [List.length_nil] at hl
  have h0 : px.length = 0 := by omega
  rw [h0, newSampleCount_le 0 (by omega)] at hl
  omega

/-! ## `std::min_element` -/

/-- The scan keeps the index of the first smallest element: if `best` is the first position
of a smallest element of the part `pre` already scanned, the result is the first position of
a smallest element of `pre ++ l`. -/
theorem minElementFrom_spec (l : List ℚ) (pre : List ℚ) (best : Nat) (bestVal : ℚ)
    (hb : pre[best]? = some bestVal)
    (hmin : ∀ (j : Nat) (v : ℚ), pre[j]? = some v → bestVal ≤ v)
    (hfirst : ∀ (j : Nat) (v : ℚ), j < best → pre[j]? = some v → bestVal < v) :
    ∃ v, (pre ++ l)[minElementFrom l pre.length best bestVal]? = some v ∧
      (∀ (j : Nat) (w : ℚ), (pre ++ l)[j]? = some w → v ≤ w) ∧
      (∀ (j : Nat) (w : ℚ), j < minElementFrom l pre.length best bestVal →
        (pre ++ l)[j]? = some w → v < w) := by
  induction l generalizing pre best bestVal with
  | nil =>
    refine ⟨bestVal, ?_, ?_, ?_⟩
    · simpa [minElementFrom] using hb
    · simpa using hmin
    · simpa [minElementFrom] using hfirst
  | cons x xs ih =>
    have hlen : (pre ++ [x]).length = pre.length + 1 := by simp
    have happ : pre ++ x :: xs = (pre ++ [x]) ++ xs := by simp
    have hsnoc : ∀ j v, (pre ++ [x])[j]? = some v →
        (pre[j]? = some v ∧ j < pre.length) ∨ (j = pre.length ∧ v = x) := by
      intro j v hj
      by_cases hlt : j < pre.length
      · left
        rw [List.getElem?_append_left hlt] at hj
        exact ⟨hj, hlt⟩
      · right
        have hge : pre.length ≤ j := Nat.le_of_not_lt hlt
        rw [List.getElem?_append_right hge] at hj
        by_cases hz : j - pre.length = 0
        · rw [hz] at hj
          simp at hj
          exact ⟨by omega, hj.symm⟩
        · obtain ⟨m, hm⟩ := Nat.exists_eq_succ_of_ne_zero hz
          rw [hm] at hj
          simp at hj
    have hbl : best < pre.length := by
      by_contra hc
      rw [List.getElem?_eq_none (Nat.le_of_not_lt hc)] at hb
      exact Option.noConfusion hb
    unfold minElementFrom
    by_cases hx : x < bestVal
    · simp only [hx, if_true]
      rw [happ, ← hlen]
      apply ih (pre ++ [x]) pre.length x
      · simp
      · intro j v hj
        rcases hsnoc j v hj with ⟨h1, _⟩ | ⟨_, h2⟩
        · exact le_trans (le_of_lt hx) (hmin j v h1)
        · rw [h2]
      · intro j v hjl hj
        rcases hsnoc j v hj with ⟨h1, _⟩ | ⟨h2, _⟩
        · exact lt_of_lt_of_le hx (hmin j v h1)
        · omega
    · simp only [hx, if_false]
      rw [happ, ← hlen]
      apply ih (pre ++ [x]) best bestVal
      · rw [List.getElem?_append_left hbl]
        exact hb
      · intro j v hj
        rcases hsnoc j v hj with ⟨h1, _⟩ | ⟨_, h2⟩
        · exact hmin j v h1
        · rw [h2]
          exact not_lt.mp hx
      · intro j v hjl hj
        rcases hsnoc j v hj with ⟨h1, _⟩ | ⟨h2, _⟩
        · exact hfirst j v hjl h1
        · omega

/-- On a non-empty vector `minElementIndex` is the first position of a smallest element. -/
theorem minElementIndex_spec (l : List ℚ) (hne : l ≠ []) :
    ∃ v, l[minElementIndex l]? = some v ∧
      (∀ (j : Nat) (w : ℚ), l[j]? = some w → v ≤ w) ∧
      (∀ (j : Nat) (w : ℚ), j < minElementIndex l → l[j]? = some w → v < w) := by
  cases l with
  | nil => exact absurd rfl hne
  | cons x xs =>
    have h := minElementFrom_spec xs [x] 0 x (by simp)
      (by
        intro j v hj
        cases j with
        | zero => simp at hj; rw [hj]
        | succ m => simp at hj)
      (by intro j v hj; omega)
    simpa [minElementIndex] using h

/-! ## The collision scan -/

/-- The innermost loop finds a collision exactly when some snapshot is too near. -/
theorem scanSnapshots_iff (H : Helpers) (ref_dist px py : ℚ) (pred : List Vehicle) :
    scanSnapshots H ref_dist px py pred = true ↔
      ∃ snap ∈ pred, H.distance px py snap.x snap.y < ref_dist := by
  induction pred with
  | nil => simp [scanSnapshots]
  | cons p ps ih =>
    unfold scanSnapshots
    by_cases h : H.distance px py p.x p.y < ref_dist
    · simp [h]
    · simp [h, ih]

/-- The middle loop finds a collision exactly when some path sample is too near to some
snapshot. -/
theorem scanSamples_iff (H : Helpers) (ref_dist : ℚ) (pred : List Vehicle)
    (trajX trajY : List ℚ) :
    scanSamples H ref_dist pred trajX trajY = true ↔ pathNear H ref_dist pred trajX trajY := by
  unfold pathNear
  induction trajX generalizing trajY with
  | nil => simp [scanSamples]
  | cons x xs ih =>
    unfold scanSamples
    have hhead : trajY.headD 0 = trajY.getD 0 0 := by cases trajY <;> rfl
    have htail : ∀ i, trajY.tail.getD i 0 = trajY.getD (i + 1) 0 := by
      intro i; cases trajY <;> simp
    constructor
    · intro h
      by_cases h0 : scanSnapshots H ref_dist x (trajY.headD 0) pred = true
      · obtain ⟨snap, hs, hd⟩ := (scanSnapshots_iff H ref_dist x _ pred).1 h0
        refine ⟨0, by simp, snap, hs, ?_⟩
        rw [hhead] at hd
        simpa using hd
      · simp only [h0, if_false] at h
        obtain ⟨i, hi, snap, hs, hd⟩ := (ih trajY.tail).1 h
        refine ⟨i + 1, by simpa using hi, snap, hs, ?_⟩
        rw [htail] at hd
        simpa using hd
    · rintro ⟨i, hi, snap, hs, hd⟩
      by_cases h0 : scanSnapshots H ref_dist x (trajY.headD 0) pred = true
      · rw [if_pos h0]
      · rw [if_neg h0]
        cases i with
        | zero =>
          exfalso
          apply h0
          rw [scanSnapshots_iff]
          refine ⟨snap, hs, ?_⟩
          rw [hhead]
          simpa using hd
        | succ k =>
          rw [ih trajY.tail]
          refine ⟨k, by simpa using hi, snap, hs, ?_⟩
          rw [htail]
          simpa using hd

/-- When every access `predictions[j].at(0)` for `j0 ≤ j < j0 + remaining` succeeds, the
outer loop returns a flag, and the flag is `true` exactly when one of these vehicles is in
the current or target lane and too near to the path. -/
theorem scanPredictions_spec (H : Helpers) (ref_dist : ℚ)
    (predictions : List (Int × List Vehicle)) (current_lane target_lane : Int)
    (trajX trajY : List ℚ) (remaining j0 : Nat)
    (hidx : ∀ j, j0 ≤ j → j < j0 + remaining → (predictionsAt predictions j).isSome = true) :
    ∃ b, scanPredictions H ref_dist predictions current_lane target_lane trajX trajY
          remaining j0 = some b ∧
      (b = true ↔ ∃ j first pred, j0 ≤ j ∧ j < j0 + remaining ∧
        predictionsAt predictions j = some (first, pred) ∧
        (first.lane = current_lane ∨ first.lane = target_lane) ∧
        pathNear H ref_dist pred trajX trajY) := by
  induction remaining generalizing j0 with
  | zero =>
    refine ⟨false, rfl, ?_⟩
    simp only [Bool.false_eq_true, false_iff, not_exists]
    intro j first pred h
    omega
  | succ r ih =>
    have h0 := hidx j0 (le_refl _) (by omega)
    obtain ⟨⟨first, pred⟩, hfp⟩ := Option.isSome_iff_exists.1 h0
    obtain ⟨b, hb, hiff⟩ := ih (j0 + 1) (by intro j h1 h2; exact hidx j (by omega) (by omega))
    unfold scanPredictions
    simp only [hfp]
    by_cases hl : first.lane = current_lane ∨ first.lane = target_lane
    · by_cases hs : scanSamples H ref_dist pred trajX trajY = true
      · refine ⟨true, by simp [hl, hs], ?_⟩
        simp only [true_iff]
        exact ⟨j0, first, pred, le_refl _, by omega, hfp, hl,
          (scanSamples_iff H ref_dist pred trajX trajY).1 hs⟩
      · refine ⟨b, by simp [hl, hs, hb], ?_⟩
        rw [hiff]
        constructor
        · rintro ⟨j, f, p, h1, h2, h3, h4, h5⟩
          exact ⟨j, f, p, by omega, by omega, h3, h4, h5⟩
        · rintro ⟨j, f, p, h1, h2, h3, h4, h5⟩
          by_cases hj : j = j0
          · exfalso
            rw [hj, hfp] at h3
            simp only [Option.some.injEq, Prod.mk.injEq] at h3
            rw [← h3.2] at h5
            exact hs ((scanSamples_iff H ref_dist pred trajX trajY).2 h5)
          · exact ⟨j, f, p, by omega, by omega, h3, h4, h5⟩
    · refine ⟨b, by simp [hl, hb], ?_⟩
      rw [hiff]
      constructor
      · rintro ⟨j, f, p, h1, h2, h3, h4, h5⟩
        exact ⟨j, f, p, by omega, by omega, h3, h4, h5⟩
      · rintro ⟨j, f, p, h1, h2, h3, h4, h5⟩
        by_cases hj : j = j0
        · exfalso
          rw [hj, hfp] at h3
          simp only [Option.some.injEq, Prod.mk.injEq] at h3
          rw [← h3.1] at h4
          exact hl h4
        · exact ⟨j, f, p, by omega, by omega, h3, h4, h5⟩

/-- On a prediction map with the keys `0 .. size-1` and non-empty sequences the collision
scan returns a flag. -/
theorem collisionEvent_total (P : Params) (H : Helpers)
    (predictions : List (Int × List Vehicle)) (hidx : predictionsIndexed predictions)
    (r_vel : ℚ) (current_lane target_lane : Int) (trajX trajY : List ℚ) :
    ∃ b, collisionEvent P H predictions r_vel current_lane target_lane trajX trajY = some b := by
  obtain ⟨b, hb, _⟩ := scanPredictions_spec H (refDistLC P r_vel) predictions current_lane
    target_lane trajX trajY predictions.length 0
    (by intro j _ h2; exact hidx j (by omega))
  exact ⟨b, hb⟩

/-- C8 fails on the code for identifiers that are not `0 .. size-1`: on the prediction map
with the single key 5, whose sequence holds one snapshot in the current lane at the position
of the path sample `(0, 0)`, the existential of the specification holds, but the scan
evaluates `predictions[0].at(0)` and throws instead of returning `true`. -/
theorem collisionEvent_sparse_key_diverges :
    (∀ e ∈ [((5 : Int), [mkVehicle 1 0 0 "CS" 1 3])], e.2 ≠ []) ∧
    collisionSpec sampleHelpers (refDistLC sampleParams 20)
      [((5 : Int), [mkVehicle 1 0 0 "CS" 1 3])] 1 0 [0] [0] ∧
    collisionEvent sampleParams sampleHelpers [((5 : Int), [mkVehicle 1 0 0 "CS" 1 3])]
      20 1 0 [0] [0] = none := by
  refine ⟨by simp, ?_, ?_⟩
  · refine ⟨_, List.mem_singleton_self _, mkVehicle 1 0 0 "CS" 1 3, rfl, Or.inl rfl, 0,
      by simp, _, List.mem_singleton_self _, ?_⟩
    norm_num [sampleHelpers, refDistLC, sampleParams, mkVehicle]
  · simp [collisionEvent, scanPredictions, predictionsAt, List.lookup]

/-! ## The loop over the successor states -/

/-- Reading a vector after one `push_back`. -/
theorem getElem_push_old {α : Type} (l : List α) (a : α) (i : Nat) (v : α)
    (h : l[i]? = some v) : (l ++ [a])[i]? = some v := by
  have hi : i < l.length := by
    by_contra hc
    rw [List.getElem?_eq_none (Nat.le_of_not_lt hc)] at h
    exact Option.noConfusion h
  rw [List.getElem?_append_left hi]
  exact h

/-- The element pushed last sits at the old size. -/
theorem getElem_push_new {α : Type} (l : List α) (a : α) (n : Nat) (h : l.length = n) :
    (l ++ [a])[n]? = some a := by
  subst h
  simp

/-- Reading a vector after one `push_back`: an old element or the new one. -/
theorem getElem_push_cases {α : Type} (l : List α) (a : α) (i : Nat) (v : α)
    (h : (l ++ [a])[i]? = some v) : l[i]? = some v ∨ (i = l.length ∧ a = v) := by
  by_cases hlt : i < l.length
  · left
    rw [List.getElem?_append_left hlt] at h
    exact h
  · right
    have hge : l.length ≤ i := Nat.le_of_not_lt hlt
    rw [List.getElem?_append_right hge] at h
    by_cases hz : i - l.length = 0
    · rw [hz] at h
      simp at h
      exact ⟨by omega, h⟩
    · obtain ⟨m, hm⟩ := Nat.exists_eq_succ_of_ne_zero hz
      rw [hm] at h
      simp at h

/-- An element read from a vector belongs to it. -/
theorem mem_of_getElem_eq {α : Type} (l : List α) (i : Nat) (v : α) (h : l[i]? = some v) :
    v ∈ l := by
  rw [List.getElem?_eq_some_iff] at h
  obtain ⟨hi, hv⟩ := h
  rw [← hv]
  exact List.getElem_mem hi

/-- A KL row survives a later iteration that does not touch `current_KL_vel`. -/
theorem rowKL_push (P : Params) (H : Helpers) (ego : Vehicle) (c : Cycle) (init : Bool)
    (st st1 : LoopState) (i : Nat) (tx ty : List ℚ) (cost : ℚ) (tl : Int)
    (hX : st1.genericTrajsX = st.genericTrajsX ++ [tx])
    (hY : st1.genericTrajsY = st.genericTrajsY ++ [ty])
    (hC : st1.costs = st.costs ++ [cost])
    (hT : st1.target_lanes = st.target_lanes ++ [tl])
    (hv : st1.current_KL_vel = st.current_KL_vel)
    (h : rowKL P H ego c init st i) : rowKL P H ego c init st1 i := by
  obtain ⟨h1, h2, h3, h4, h5⟩ := h
  unfold rowKL
  rw [hX, hY, hC, hT, hv]
  exact ⟨h1, getElem_push_old _ _ _ _ h2, getElem_push_old _ _ _ _ h3,
    getElem_push_old _ _ _ _ h4, getElem_push_old _ _ _ _ h5⟩

/-- A lane-change row survives a later iteration. -/
theorem rowLC_push (P : Params) (H : Helpers) (ego : Vehicle) (c : Cycle) (init : Bool)
    (st st1 : LoopState) (i : Nat) (tx ty : List ℚ) (cost : ℚ) (tl : Int)
    (guard : Prop) (tgt : Int) (vel cHi cLo : ℚ)
    (hX : st1.genericTrajsX = st.genericTrajsX ++ [tx])
    (hY : st1.genericTrajsY = st.genericTrajsY ++ [ty])
    (hC : st1.costs = st.costs ++ [cost])
    (hT : st1.target_lanes = st.target_lanes ++ [tl])
    (h : rowLC P H ego c init st i guard tgt vel cHi cLo) :
    rowLC P H ego c init st1 i guard tgt vel cHi cLo := by
  obtain ⟨a, b, d, e, h1, h2, h3, h4, h5, h6⟩ := h
  unfold rowLC
  rw [hX, hY, hC, hT]
  exact ⟨a, b, d, e, getElem_push_old _ _ _ _ h1, getElem_push_old _ _ _ _ h2,
    getElem_push_old _ _ _ _ h3, h4, getElem_push_old _ _ _ _ h5, h6⟩

/-- The loop invariant holds before the first iteration. -/
theorem loopInv_initial (P : Params) (H : Helpers) (ego : Vehicle) (c : Cycle) (init : Bool) :
    LoopInv P H ego c init [] (initialLoopState c init) where
  lenX := rfl
  lenY := rfl
  lenC := rfl
  lenT := rfl
  freshKL := fun _ => rfl
  freshLCL := fun _ => rfl
  freshLCR := fun _ => rfl
  near := Or.inl rfl
  kl := by intro i h; simp at h
  lcl := by intro i h; simp at h
  lcr := by intro i h; simp at h

/-- The iteration for the state KL preserves the loop invariant. -/
theorem candidateStep_KL_inv (P : Params) (H : Helpers) (ego : Vehicle) (c : Cycle)
    (init : Bool) (done : List String) (st st1 : LoopState)
    (hinv : LoopInv P H ego c init done st) (hnot : "KL" ∉ done)
    (h : candidateStep P H ego c st "KL" = some st1) :
    LoopInv P H ego c init (done ++ ["KL"]) st1 := by
  simp only [candidateStep, if_true, Option.some.injEq] at h
  have hv : st.current_KL_vel = c.r_vel := hinv.freshKL hnot
  have hreg : st1.current_KL_vel = (regulateVelocity P ego c.vehicles c.r_vel c.current_lane
      c.current_lane c.previous_x_path init).1 := by
    rw [← h, hv]
    exact regulateVelocity_fst_indep _ _ _ _ _ _ _ _ _
  have a1 : ¬ ("KL" = "LCL") := by decide
  have a2 : ¬ ("KL" = "LCR") := by decide
  refine
    { lenX := by rw [← h]; simp [hinv.lenX]
      lenY := by rw [← h]; simp [hinv.lenY]
      lenC := by rw [← h]; simp [hinv.lenC]
      lenT := by rw [← h]; simp [hinv.lenT]
      freshKL := by intro hn; simp at hn
      freshLCL := by
        intro hn
        rw [← h]
        exact hinv.freshLCL (fun hm => hn (List.mem_append_left _ hm))
      freshLCR := by
        intro hn
        rw [← h]
        exact hinv.freshLCR (fun hm => hn (List.mem_append_left _ hm))
      near := by rw [← h]; exact hinv.near
      kl := ?_
      lcl := ?_
      lcr := ?_ }
  · intro i hi
    rcases getElem_push_cases _ _ _ _ hi with hold | ⟨hnew, _⟩
    · exact absurd (mem_of_getElem_eq _ _ _ hold) hnot
    · refine ⟨hreg, ?_, ?_, ?_, ?_⟩
      · rw [← h, hnew]
        exact getElem_push_new _ _ _ hinv.lenT
      · rw [hreg, ← h, hnew, hv]
        simp only []
        rw [regulateVelocity_fst_indep _ _ _ _ _ _ _ st.init_acc_over init]
        exact getElem_push_new _ _ _ hinv.lenX
      · rw [hreg, ← h, hnew, hv]
        simp only []
        rw [regulateVelocity_fst_indep _ _ _ _ _ _ _ st.init_acc_over init]
        exact getElem_push_new _ _ _ hinv.lenY
      · rw [hreg, ← h, hnew, hv]
        simp only []
        rw [regulateVelocity_fst_indep _ _ _ _ _ _ _ st.init_acc_over init]
        exact getElem_push_new _ _ _ hinv.lenC
  · intro i hi
    rcases getElem_push_cases _ _ _ _ hi with hold | ⟨_, hnew⟩
    · have hrow := hinv.lcl i hold
      rw [← h]
      exact rowLC_push P H ego c init st _ i _ _ _ _ _ _ _ _ _ rfl rfl rfl rfl hrow
    · exact absurd hnew a1
  · intro i hi
    rcases getElem_push_cases _ _ _ _ hi with hold | ⟨_, hnew⟩
    · have hrow := hinv.lcr i hold
      rw [← h]
      exact rowLC_push P H ego c init st _ i _ _ _ _ _ _ _ _ _ rfl rfl rfl rfl hrow
    · exact absurd hnew a2

/-- The iteration for the state LCL preserves the loop invariant. -/
theorem candidateStep_LCL_inv (P : Params) (H : Helpers) (ego : Vehicle) (c : Cycle)
    (init : Bool) (done : List String) (st st1 : LoopState)
    (hinv : LoopInv P H ego c init done st) (hnot : "LCL" ∉ done)
    (h : candidateStep P H ego c st "LCL" = some st1) :
    LoopInv P H ego c init (done ++ ["LCL"]) st1 := by
  have a0 : ¬ ("LCL" = "KL") := by decide
  have a1 : ¬ ("LCL" = "LCR") := by decide
  have hv : st.current_LCL_vel = c.r_vel := hinv.freshLCL hnot
  simp only [candidateStep, a0, a1, if_true, if_false] at h
  split at h
  · exact Option.noConfusion h
  · rename_i coll hce
    simp only [Option.some.injEq] at h
    rw [hv] at h hce
    refine
      { lenX := by rw [← h]; simp [hinv.lenX]
        lenY := by rw [← h]; simp [hinv.lenY]
        lenC := by rw [← h]; simp [hinv.lenC]
        lenT := by rw [← h]; simp [hinv.lenT]
        freshKL := by
          intro hn
          rw [← h]
          exact hinv.freshKL (fun hm => hn (List.mem_append_left _ hm))
        freshLCL := by intro hn; simp at hn
        freshLCR := by
          intro hn
          rw [← h]
          exact hinv.freshLCR (fun hm => hn (List.mem_append_left _ hm))
        near := ?near
        kl := ?kl
        lcl := ?own
        lcr := ?oth }
    case near =>
      rw [← h]
      simp only []
      by_cases hg : c.current_lane > 0
      · rw [if_pos hg]
        exact Or.inr (Or.inl ⟨hg, rfl⟩)
      · rw [if_neg hg]
        exact hinv.near
    case kl =>
      intro i hi
      rcases getElem_push_cases _ _ _ _ hi with hold | ⟨_, hnew⟩
      · have hrow := hinv.kl i hold
        rw [← h]
        exact rowKL_push P H ego c init st _ i _ _ _ _ rfl rfl rfl rfl rfl hrow
      · exact absurd hnew a0
    case own =>
      intro i hi
      rcases getElem_push_cases _ _ _ _ hi with hold | ⟨hnew, _⟩
      · exact absurd (mem_of_getElem_eq _ _ _ hold) hnot
      · rw [hnew, ← h]
        refine ⟨_, _, _, coll, getElem_push_new _ _ _ hinv.lenT,
          getElem_push_new _ _ _ hinv.lenX, getElem_push_new _ _ _ hinv.lenY, hce,
          getElem_push_new _ _ _ hinv.lenC, ?_, ?_, ?_⟩
        · by_cases hg : c.current_lane > 0
          · rw [if_pos hg]
            exact Or.inr (Or.inl ⟨hg, rfl⟩)
          · rw [if_neg hg]
            exact hinv.near
        · intro hg
          simp only [if_pos hg]
          exact ⟨trivial, regulateVelocity_fst_indep _ _ _ _ _ _ _ _ _, trivial, trivial⟩
        · intro hg
          simp only [if_neg hg]
          exact ⟨trivial, trivial, trivial⟩
    case oth =>
      intro i hi
      rcases getElem_push_cases _ _ _ _ hi with hold | ⟨_, hnew⟩
      · have hrow := hinv.lcr i hold
        rw [← h]
        exact rowLC_push P H ego c init st _ i _ _ _ _ _ _ _ _ _ rfl rfl rfl rfl hrow
      · exact absurd hnew a1

/-- The iteration for the state LCR preserves the loop invariant. -/
theorem candidateStep_LCR_inv (P : Params) (H : Helpers) (ego : Vehicle) (c : Cycle)
    (init : Bool) (done : List String) (st st1 : LoopState)
    (hinv : LoopInv P H ego c init done st) (hnot : "LCR" ∉ done)
    (h : candidateStep P H ego c st "LCR" = some st1) :
    LoopInv P H ego c init (done ++ ["LCR"]) st1 := by
  have a0 : ¬ ("LCR" = "KL") := by decide
  have a1 : ¬ ("LCR" = "LCL") := by decide
  have hv : st.current_LCR_vel = c.r_vel := hinv.freshLCR hnot
  simp only [candidateStep, a0, a1, if_true, if_false] at h
  split at h
  · exact Option.noConfusion h
  · rename_i coll hce
    simp only [Option.some.injEq] at h
    rw [hv] at h hce
    refine
      { lenX := by rw [← h]; simp [hinv.lenX]
        lenY := by rw [← h]; simp [hinv.lenY]
        lenC := by rw [← h]; simp [hinv.lenC]
        lenT := by rw [← h]; simp [hinv.lenT]
        freshKL := by
          intro hn
          rw [← h]
          exact hinv.freshKL (fun hm => hn (List.mem_append_left _ hm))
        freshLCR := by intro hn; simp at hn
        freshLCL := by
          intro hn
          rw [← h]
          exact hinv.freshLCL (fun hm => hn (List.mem_append_left _ hm))
        near := ?near
        kl := ?kl
        lcr := ?own
        lcl := ?oth }
    case near =>
      rw [← h]
      simp only []
      by_cases hg : c.current_lane < 2
      · rw [if_pos hg]
        exact Or.inr (Or.inr ⟨hg, rfl⟩)
      · rw [if_neg hg]
        exact hinv.near
    case kl =>
      intro i hi
      rcases getElem_push_cases _ _ _ _ hi with hold | ⟨_, hnew⟩
      · have hrow := hinv.kl i hold
        rw [← h]
        exact rowKL_push P H ego c init st _ i _ _ _ _ rfl rfl rfl rfl rfl hrow
      · exact absurd hnew a0
    case own =>
      intro i hi
      rcases getElem_push_cases _ _ _ _ hi with hold | ⟨hnew, _⟩
      · exact absurd (mem_of_getElem_eq _ _ _ hold) hnot
      · rw [hnew, ← h]
        refine ⟨_, _, _, coll, getElem_push_new _ _ _ hinv.lenT,
          getElem_push_new _ _ _ hinv.lenX, getElem_push_new _ _ _ hinv.lenY, hce,
          getElem_push_new _ _ _ hinv.lenC, ?_, ?_, ?_⟩
        · by_cases hg : c.current_lane < 2
          · rw [if_pos hg]
            exact Or.inr (Or.inr ⟨hg, rfl⟩)
          · rw [if_neg hg]
            exact hinv.near
        · intro hg
          simp only [if_pos hg]
          exact ⟨trivial, regulateVelocity_fst_indep _ _ _ _ _ _ _ _ _, trivial, trivial⟩
        · intro hg
          simp only [if_neg hg]
          exact ⟨trivial, trivial, trivial⟩
    case oth =>
      intro i hi
      rcases getElem_push_cases _ _ _ _ hi with hold | ⟨_, hnew⟩
      · have hrow := hinv.lcl i hold
        rw [← h]
        exact rowLC_push P H ego c init st _ i _ _ _ _ _ _ _ _ _ rfl rfl rfl rfl hrow
      · exact absurd hnew a1

/-- The loop over a duplicate-free list of known states preserves the loop invariant. -/
theorem candidateLoop_inv (P : Params) (H : Helpers) (ego : Vehicle) (c : Cycle) (init : Bool)
    (rest : List String) :
    ∀ (done : List String) (st st1 : LoopState), LoopInv P H ego c init done st →
      (∀ it ∈ rest, knownState it) → (done ++ rest).Nodup →
      candidateLoop P H ego c rest st = some st1 → LoopInv P H ego c init (done ++ rest) st1 := by
  induction rest with
  | nil =>
    intro done st st1 hinv _ _ h
    simp only [candidateLoop, Option.some.injEq] at h
    rw [← h, List.append_nil]
    exact hinv
  | cons it rest ih =>
    intro done st st1 hinv hk hnd h
    have hnot : it ∉ done := by
      intro hm
      have := List.disjoint_of_nodup_append hnd hm
      exact this (List.mem_cons_self _ _)
    have hnd2 : ((done ++ [it]) ++ rest).Nodup := by
      simpa using hnd
    have hk2 : ∀ x ∈ rest, knownState x := fun x hx => hk x (List.mem_cons_of_mem _ hx)
    unfold candidateLoop at h
    cases hstep : candidateStep P H ego c st it with
    | none => rw [hstep] at h; exact Option.noConfusion h
    | some st2 =>
      rw [hstep] at h
      simp only [] at h
      have hinv2 : LoopInv P H ego c init (done ++ [it]) st2 := by
        rcases hk it (List.mem_cons_self _ _) with e | e | e
        · subst e
          exact candidateStep_KL_inv P H ego c init done st st2 hinv hnot hstep
        · subst e
          exact candidateStep_LCL_inv P H ego c init done st st2 hinv hnot hstep
        · subst e
          exact candidateStep_LCR_inv P H ego c init done st st2 hinv hnot hstep
      have := ih (done ++ [it]) st2 st1 hinv2 hk2 hnd2 h
      simpa using this

/-- The possible lists of successor states. -/
theorem successorStates_shapes (ego : Vehicle) :
    successorStates ego ∈ [[], ["KL"], ["KL", "LCL"], ["KL", "LCR"], ["KL", "LCL", "LCR"],
      ["LCL"], ["LCR"]] := by
  unfold successorStates
  split_ifs <;> simp

/-- Every successor state is one of KL, LCL, LCR. -/
theorem successorStates_known (ego : Vehicle) : ∀ it ∈ successorStates ego, knownState it := by
  have h := successorStates_shapes ego
  simp only [List.mem_cons, List.mem_singleton, List.not_mem_nil, or_false] at h
  rcases h with h | h | h | h | h | h | h <;> rw [h] <;> simp [knownState]

/-- No successor state occurs twice. -/
theorem successorStates_nodup (ego : Vehicle) : (successorStates ego).Nodup := by
  have h := successorStates_shapes ego
  simp only [List.mem_cons, List.mem_singleton, List.not_mem_nil, or_false] at h
  rcases h with h | h | h | h | h | h | h <;> rw [h] <;> decide

/-- The successor states come in the order KL, LCL, LCR. -/
theorem successorStates_sorted (ego : Vehicle) :
    (successorStates ego).Pairwise (fun a b => stateRank a < stateRank b) := by
  have h := successorStates_shapes ego
  simp only [List.mem_cons, List.mem_singleton, List.not_mem_nil, or_false] at h
  rcases h with h | h | h | h | h | h | h <;> rw [h] <;> decide

/-- After the loop of a cycle the invariant holds for the whole list of successor states. -/
theorem candidateLoop_successors (P : Params) (H : Helpers) (ego : Vehicle) (c : Cycle)
    (init : Bool) (st : LoopState)
    (h : candidateLoop P H ego c (successorStates ego) (initialLoopState c init) = some st) :
    LoopInv P H ego c init (successorStates ego) st := by
  have := candidateLoop_inv P H ego c init (successorStates ego) [] _ st
    (loopInv_initial P H ego c init) (successorStates_known ego)
    (by simpa using successorStates_nodup ego) h
  simpa using this

/-- On a prediction map with the keys `0 .. size-1` and non-empty sequences the collision
scan does not throw. -/
theorem collisionEvent_ne_none (P : Params) (H : Helpers)
    (predictions : List (Int × List Vehicle)) (hidx : predictionsIndexed predictions)
    (r_vel : ℚ) (current_lane target_lane : Int) (trajX trajY : List ℚ) :
    ¬ (collisionEvent P H predictions r_vel current_lane target_lane trajX trajY = none) := by
  obtain ⟨b, hb⟩ := collisionEvent_total P H predictions hidx r_vel current_lane target_lane
    trajX trajY
  rw [hb]
  exact fun h => Option.noConfusion h

/-- On a prediction map with the keys `0 .. size-1` and non-empty sequences no iteration of
the loop throws. -/
theorem candidateStep_total (P : Params) (H : Helpers) (ego : Vehicle) (c : Cycle)
    (hidx : predictionsIndexed c.predictions) (st : LoopState) (it : String) :
    ∃ st1, candidateStep P H ego c st it = some st1 := by
  have a0 : ¬ ("LCL" = "KL") := by decide
  have a1 : ¬ ("LCR" = "KL") := by decide
  have a2 : ¬ ("LCR" = "LCL") := by decide
  by_cases h1 : it = "KL"
  · subst h1
    simp only [candidateStep, if_true]
    exact ⟨_, rfl⟩
  · by_cases h2 : it = "LCL"
    · subst h2
      simp only [candidateStep, a0, if_true, if_false]
      split
      · rename_i hce
        exact absurd hce (collisionEvent_ne_none P H c.predictions hidx _ _ _ _ _)
      · exact ⟨_, rfl⟩
    · by_cases h3 : it = "LCR"
      · subst h3
        simp only [candidateStep, a1, a2, if_true, if_false]
        split
        · rename_i hce
          exact absurd hce (collisionEvent_ne_none P H c.predictions hidx _ _ _ _ _)
        · exact ⟨_, rfl⟩
      · simp only [candidateStep, h1, h2, h3, if_false]
        exact ⟨_, rfl⟩

/-- On a prediction map with the keys `0 .. size-1` and non-empty sequences the loop over
the successor states completes. -/
theorem candidateLoop_total (P : Params) (H : Helpers) (ego : Vehicle) (c : Cycle)
    (hidx : predictionsIndexed c.predictions) (states : List String) :
    ∀ st, ∃ st1, candidateLoop P H ego c states st = some st1 := by
  induction states with
  | nil => intro st; exact ⟨st, rfl⟩
  | cons it rest ih =>
    intro st
    obtain ⟨st2, h2⟩ := candidateStep_total P H ego c hidx st it
    obtain ⟨st1, h1⟩ := ih st2
    refine ⟨st1, ?_⟩
    unfold candidateLoop
    rw [h2]
    exact h1

/-! ## The commit step -/

/-- The commit step succeeds exactly when the four checked accesses at the index of the
minimum cost succeed, and then copies what it reads there. -/
theorem commit_eq_some (ego : Vehicle) (c : Cycle) (states : List String) (st : LoopState)
    (out : Outcome) (h : commit ego c states st = some out) :
    st.genericTrajsX[minElementIndex st.costs]? = some out.next_vals_x ∧
    st.genericTrajsY[minElementIndex st.costs]? = some out.next_vals_y ∧
    states[minElementIndex st.costs]? = some out.ego.state ∧
    st.target_lanes[minElementIndex st.costs]? = some out.ego.goal_lane ∧
    out.r_vel = (if out.ego.state = "KL" then st.current_KL_vel
      else if out.ego.state = "LCL" then st.current_LCL_vel
      else if out.ego.state = "LCR" then st.current_LCR_vel
      else c.r_vel) ∧
    out.init_acc_over = st.init_acc_over ∧
    out.ego = { ego with state := out.ego.state, goal_lane := out.ego.goal_lane } := by
  unfold commit at h
  simp only [List.get?_eq_getElem?] at h
  split at h
  · rename_i tx ty state gl h1 h2 h3 h4
    simp only [Option.some.injEq] at h
    subst h
    exact ⟨h1, h2, h3, h4, rfl, rfl, rfl⟩
  · exact Option.noConfusion h

/-- After a completed loop over a non-empty list of successor states the commit step
succeeds. -/
theorem commit_total (P : Params) (H : Helpers) (ego : Vehicle) (c : Cycle) (init : Bool)
    (states : List String) (st : LoopState) (hinv : LoopInv P H ego c init states st)
    (hne : states ≠ []) : ∃ out, commit ego c states st = some out := by
  have hcne : st.costs ≠ [] := by
    intro h0
    have := hinv.lenC
    rw [h0] at this
    exact hne (List.length_eq_zero.1 this.symm)
  obtain ⟨v, hv, _, _⟩ := minElementIndex_spec st.costs hcne
  have hi : minElementIndex st.costs < states.length := by
    rw [List.getElem?_eq_some_iff] at hv
    obtain ⟨hlt, _⟩ := hv
    rw [hinv.lenC] at hlt
    exact hlt
  have hX : minElementIndex st.costs < st.genericTrajsX.length := by rw [hinv.lenX]; exact hi
  have hY : minElementIndex st.costs < st.genericTrajsY.length := by rw [hinv.lenY]; exact hi
  have hT : minElementIndex st.costs < st.target_lanes.length := by rw [hinv.lenT]; exact hi
  unfold commit
  simp only [List.get?_eq_getElem?, List.getElem?_eq_getElem hX, List.getElem?_eq_getElem hY,
    List.getElem?_eq_getElem hT, List.getElem?_eq_getElem hi]
  exact ⟨_, rfl⟩

/-- A cycle with a non-empty list of successor states and a prediction map with the keys
`0 .. size-1` and non-empty sequences commits an outcome. -/
theorem implementNextTrajectory_total (P : Params) (H : Helpers) (ego : Vehicle) (c : Cycle)
    (init : Bool) (hidx : predictionsIndexed c.predictions) (hne : successorStates ego ≠ []) :
    ∃ out, implementNextTrajectory P H ego c init = some out := by
  obtain ⟨st, hst⟩ := candidateLoop_total P H ego c hidx (successorStates ego)
    (initialLoopState c init)
  have hinv := candidateLoop_successors P H ego c init st hst
  obtain ⟨out, hout⟩ := commit_total P H ego c init _ st hinv hne
  refine ⟨out, ?_⟩
  unfold implementNextTrajectory
  simp only [hst]
  exact hout

/-- A committed outcome comes from a completed loop followed by the commit step. -/
theorem implementNextTrajectory_eq_some (P : Params) (H : Helpers) (ego : Vehicle) (c : Cycle)
    (init : Bool) (out : Outcome) (h : implementNextTrajectory P H ego c init = some out) :
    ∃ st, candidateLoop P H ego c (successorStates ego) (initialLoopState c init) = some st ∧
      commit ego c (successorStates ego) st = some out := by
  unfold implementNextTrajectory at h
  simp only [] at h
  cases hst : candidateLoop P H ego c (successorStates ego) (initialLoopState c init) with
  | none => rw [hst] at h; exact Option.noConfusion h
  | some st =>
    rw [hst] at h
    exact ⟨st, rfl, h⟩

/-! ## The selector -/

/-- C7: after the loop of a cycle, the cost at the index of each candidate is: for KL, 1 when
the speed `regulateVelocity` returns for (current lane, current lane) from the incoming
reference speed is strictly below the incoming reference speed and 0 otherwise; for LCL, 1.1
when the collision scan on that candidate's path and target lane reports a collision and 0.1
otherwise; for LCR, 1.2 resp. 0.2. The loop completes whenever the prediction map has the keys
`0 .. size-1` with non-empty sequences. -/
theorem candidate_costs (P : Params) (H : Helpers) (ego : Vehicle) (c : Cycle) (init : Bool) :
    (predictionsIndexed c.predictions →
      ∃ st, candidateLoop P H ego c (successorStates ego) (initialLoopState c init) = some st) ∧
    ∀ st, candidateLoop P H ego c (successorStates ego) (initialLoopState c init) = some st →
      st.costs.length = (successorStates ego).length ∧
      ∀ i : Nat,
        ((successorStates ego)[i]? = some "KL" →
          st.costs[i]? = some
            (if (regulateVelocity P ego c.vehicles c.r_vel c.current_lane c.current_lane
                c.previous_x_path init).1 < c.r_vel then 1 else 0)) ∧
        ((successorStates ego)[i]? = some "LCL" →
          ∃ tl tx ty coll, st.target_lanes[i]? = some tl ∧ st.genericTrajsX[i]? = some tx ∧
            st.genericTrajsY[i]? = some ty ∧
            collisionEvent P H c.predictions c.r_vel c.current_lane tl tx ty = some coll ∧
            st.costs[i]? = some (if coll = true then 11/10 else 1/10)) ∧
        ((successorStates ego)[i]? = some "LCR" →
          ∃ tl tx ty coll, st.target_lanes[i]? = some tl ∧ st.genericTrajsX[i]? = some tx ∧
            st.genericTrajsY[i]? = some ty ∧
            collisionEvent P H c.predictions c.r_vel c.current_lane tl tx ty = some coll ∧
            st.costs[i]? = some (if coll = true then 6/5 else 1/5)) := by
  refine ⟨fun hidx => candidateLoop_total P H ego c hidx _ _, ?_⟩
  intro st hst
  have hinv := candidateLoop_successors P H ego c init st hst
  refine ⟨hinv.lenC, fun i => ⟨?_, ?_, ?_⟩⟩
  · intro hi
    obtain ⟨h1, _, _, _, h5⟩ := hinv.kl i hi
    rw [h5, h1]
  · intro hi
    obtain ⟨tl, tx, ty, coll, h1, h2, h3, h4, h5, _⟩ := hinv.lcl i hi
    exact ⟨tl, tx, ty, coll, h1, h2, h3, h4, h5⟩
  · intro hi
    obtain ⟨tl, tx, ty, coll, h1, h2, h3, h4, h5, _⟩ := hinv.lcr i hi
    exact ⟨tl, tx, ty, coll, h1, h2, h3, h4, h5⟩

/-- C6 as stated fails: with the ego in state LCL in lane 1 (goal lane 0) and the argument
`current_lane = 0`, the only candidate is LCL, its lane guard `current_lane > 0` skips the
regulator, and the committed reference speed stays 20, which is not the speed
`regulateVelocity` gives for that candidate's lanes. -/
theorem implementNextTrajectory_speed_counterexample :
    successorStates (mkVehicle 1 0 0 "LCL" 0 3) ≠ [] ∧
    implementNextTrajectory sampleParams sampleHelpers (mkVehicle 1 0 0 "LCL" 0 3)
        (emptyCycle 20 0) false =
      some { ego := mkVehicle 1 0 0 "LCL" 0 3, next_vals_x := [], next_vals_y := [],
             r_vel := 20, init_acc_over := false } ∧
    (regulateVelocity sampleParams (mkVehicle 1 0 0 "LCL" 0 3) [] 20 0 0 [] false).1 ≠ 20 := by
  refine ⟨by decide, ?_, ?_⟩
  · simp [implementNextTrajectory, successorStates, mkVehicle, candidateLoop, candidateStep,
      emptyCycle, initialLoopState, collisionEvent, scanPredictions, commit, minElementIndex,
      minElementFrom]
  · norm_num [regulateVelocity, regulateFlags, regulateLoop, sampleParams]

/-- C6 (amended): a cycle with a non-empty list of successor states that completes commits
the candidate at the first index of minimum cost in successor order: the output path, the
maneuver state and `goal_lane` are that candidate's; the reference speed becomes the speed
`regulateVelocity` produced for that candidate when the candidate's path was generated
(non-empty path), and stays the incoming reference speed when the lane guard of the
candidate skipped the regulator and the synthesiser (empty path). The cycle completes
whenever the prediction map has the keys `0 .. size-1` with non-empty sequences. -/
theorem implementNextTrajectory_commits_first_minimum (P : Params) (H : Helpers)
    (ego : Vehicle) (c : Cycle) (init : Bool) (hne : successorStates ego ≠ []) :
    (predictionsIndexed c.predictions →
      ∃ out, implementNextTrajectory P H ego c init = some out) ∧
    ∀ out, implementNextTrajectory P H ego c init = some out →
      ∃ st cost,
        candidateLoop P H ego c (successorStates ego) (initialLoopState c init) = some st ∧
        st.costs[minElementIndex st.costs]? = some cost ∧
        (∀ (j : Nat) (w : ℚ), st.costs[j]? = some w → cost ≤ w) ∧
        (∀ (j : Nat) (w : ℚ), j < minElementIndex st.costs → st.costs[j]? = some w → cost < w) ∧
        (successorStates ego)[minElementIndex st.costs]? = some out.ego.state ∧
        st.target_lanes[minElementIndex st.costs]? = some out.ego.goal_lane ∧
        st.genericTrajsX[minElementIndex st.costs]? = some out.next_vals_x ∧
        st.genericTrajsY[minElementIndex st.costs]? = some out.next_vals_y ∧
        (out.next_vals_x ≠ [] →
          out.r_vel = (regulateVelocity P ego c.vehicles c.r_vel c.current_lane
            out.ego.goal_lane c.previous_x_path init).1) ∧
        (out.next_vals_x = [] → out.r_vel = c.r_vel) := by
  refine ⟨fun hidx => implementNextTrajectory_total P H ego c init hidx hne, ?_⟩
  intro out hout
  obtain ⟨st, hst, hcommit⟩ := implementNextTrajectory_eq_some P H ego c init out hout
  have hinv := candidateLoop_successors P H ego c init st hst
  obtain ⟨cX, cY, cS, cT, cV, _, _⟩ := commit_eq_some ego c _ st out hcommit
  have hcne : st.costs ≠ [] := by
    intro h0
    have := hinv.lenC
    rw [h0] at this
    exact hne (List.length_eq_zero.1 this.symm)
  obtain ⟨cost, hc1, hc2, hc3⟩ := minElementIndex_spec st.costs hcne
  refine ⟨st, cost, hst, hc1, hc2, hc3, cS, cT, cX, cY, ?_⟩
  have a0 : ¬ ("LCL" = "KL") := by decide
  have a1 : ¬ ("LCR" = "KL") := by decide
  have a2 : ¬ ("LCR" = "LCL") := by decide
  rcases successorStates_known ego _ (mem_of_getElem_eq _ _ _ cS) with e | e | e
  · rw [e] at cS
    obtain ⟨h1, h2, h3, _, _⟩ := hinv.kl _ cS
    rw [e, if_pos rfl] at cV
    have hg : out.ego.goal_lane = c.current_lane := by
      rw [cT] at h2
      exact Option.some.inj h2
    have hx := Option.some.inj (cX.symm.trans h3)
    constructor
    · intro _
      rw [cV, h1, hg]
    · intro hnil
      rw [hx] at hnil
      exact absurd hnil (generateXYTrajectory_ne_nil _ _ _ _ _ _ _ _ _ _)
  · rw [e] at cS
    obtain ⟨tl, tx, ty, coll, h1, h2, _, _, _, _, hgd, hskip⟩ := hinv.lcl _ cS
    rw [e, if_neg a0, if_pos rfl] at cV
    have hg : out.ego.goal_lane = tl := Option.some.inj (cT.symm.trans h1)
    have hx : out.next_vals_x = tx := Option.some.inj (cX.symm.trans h2)
    by_cases hguard : c.current_lane > 0
    · obtain ⟨g1, g2, g3, _⟩ := hgd hguard
      constructor
      · intro _
        rw [cV, hg, g1]
        exact g2
      · intro hnil
        rw [hx, g3] at hnil
        exact absurd hnil (generateXYTrajectory_ne_nil _ _ _ _ _ _ _ _ _ _)
    · obtain ⟨s1, _, s3⟩ := hskip hguard
      constructor
      · intro hnn
        rw [hx] at hnn
        exact absurd s1 hnn
      · intro _
        rw [cV]
        exact s3
  · rw [e] at cS
    obtain ⟨tl, tx, ty, coll, h1, h2, _, _, _, _, hgd, hskip⟩ := hinv.lcr _ cS
    rw [e, if_neg a1, if_neg a2, if_pos rfl] at cV
    have hg : out.ego.goal_lane = tl := Option.some.inj (cT.symm.trans h1)
    have hx : out.next_vals_x = tx := Option.some.inj (cX.symm.trans h2)
    by_cases hguard : c.current_lane < 2
    · obtain ⟨g1, g2, g3, _⟩ := hgd hguard
      constructor
      · intro _
        rw [cV, hg, g1]
        exact g2
      · intro hnil
        rw [hx, g3] at hnil
        exact absurd hnil (generateXYTrajectory_ne_nil _ _ _ _ _ _ _ _ _ _)
    · obtain ⟨s1, _, s3⟩ := hskip hguard
      constructor
      · intro hnn
        rw [hx] at hnn
        exact absurd s1 hnn
      · intro _
        rw [cV]
        exact s3

/-- Evaluation of the amended C6 in state KL in lane 1 of 3 without tracked vehicles: the
cycle commits an outcome. -/
theorem implementNextTrajectory_commits_first_minimum_witness :
    successorStates (mkVehicle 1 0 0 "KL" 1 3) ≠ [] ∧
    (implementNextTrajectory sampleParams sampleHelpers (mkVehicle 1 0 0 "KL" 1 3)
      (emptyCycle 20 1) false).isSome = true :=
  ⟨by decide,
    Option.isSome_iff_exists.2
      ((implementNextTrajectory_commits_first_minimum sampleParams sampleHelpers
        (mkVehicle 1 0 0 "KL" 1 3) (emptyCycle 20 1) false (by decide)).1 (by decide))⟩

/-- The rank of a state is at most 2. -/
theorem stateRank_le (it : String) : stateRank it ≤ 2 := by
  unfold stateRank
  split_ifs <;> omega

/-- The cost of the candidate at index `j` is its rank in tenths, plus 1 when it is
penalised. -/
theorem row_cost (P : Params) (H : Helpers) (ego : Vehicle) (c : Cycle) (init : Bool)
    (states : List String) (st : LoopState) (hinv : LoopInv P H ego c init states st)
    (hk : ∀ it ∈ states, knownState it) (j : Nat) (it : String) (hj : states[j]? = some it) :
    ∃ cj, st.costs[j]? = some cj ∧
      (candidatePenalised P H ego c init st it j → cj = 1 + (stateRank it : ℚ) / 10) ∧
      (¬ candidatePenalised P H ego c init st it j → cj = (stateRank it : ℚ) / 10) := by
  have a0 : ¬ ("LCL" = "KL") := by decide
  have a1 : ¬ ("LCR" = "KL") := by decide
  have a2 : ¬ ("LCR" = "LCL") := by decide
  have b0 : ¬ ("KL" = "LCL") := by decide
  have b1 : ¬ ("KL" = "LCR") := by decide
  rcases hk it (mem_of_getElem_eq _ _ _ hj) with e | e | e
  · subst e
    obtain ⟨h1, _, _, _, h5⟩ := hinv.kl j hj
    rw [h1] at h5
    have hpen : candidatePenalised P H ego c init st "KL" j ↔
        (regulateVelocity P ego c.vehicles c.r_vel c.current_lane c.current_lane
          c.previous_x_path init).1 < c.r_vel := by
      simp [candidatePenalised, b0, b1]
    refine ⟨_, h5, ?_, ?_⟩
    · intro hp
      rw [if_pos (hpen.1 hp)]
      norm_num [stateRank]
    · intro hp
      rw [if_neg (fun h => hp (hpen.2 h))]
      norm_num [stateRank]
  · subst e
    obtain ⟨tl, tx, ty, coll, h1, h2, h3, h4, h5, _⟩ := hinv.lcl j hj
    have hpen : candidatePenalised P H ego c init st "LCL" j ↔ coll = true := by
      simp [candidatePenalised, a0, List.getD_eq_getElem?_getD, h1, h2, h3, h4]
    refine ⟨_, h5, ?_, ?_⟩
    · intro hp
      rw [if_pos (hpen.1 hp)]
      norm_num [stateRank, a0]
    · intro hp
      rw [if_neg (fun h => hp (hpen.2 h))]
      norm_num [stateRank, a0]
  · subst e
    obtain ⟨tl, tx, ty, coll, h1, h2, h3, h4, h5, _⟩ := hinv.lcr j hj
    have hpen : candidatePenalised P H ego c init st "LCR" j ↔ coll = true := by
      simp [candidatePenalised, a1, List.getD_eq_getElem?_getD, h1, h2, h3, h4]
    refine ⟨_, h5, ?_, ?_⟩
    · intro hp
      rw [if_pos (hpen.1 hp)]
      norm_num [stateRank, a1, a2]
    · intro hp
      rw [if_neg (fun h => hp (hpen.2 h))]
      norm_num [stateRank, a1, a2]

/-- In a list sorted by rank an earlier state has a smaller rank. -/
theorem rank_lt_of_sorted (states : List String)
    (hs : states.Pairwise (fun a b => stateRank a < stateRank b))
    (i j : Nat) (a b : String) (hij : i < j) (hi : states[i]? = some a)
    (hj : states[j]? = some b) : stateRank a < stateRank b := by
  rw [List.getElem?_eq_some_iff] at hi hj
  obtain ⟨hi1, hi2⟩ := hi
  obtain ⟨hj1, hj2⟩ := hj
  rw [← hi2, ← hj2]
  exact List.pairwise_iff_getElem.1 hs i j hi1 hj1 hij

/-- C9: a cycle that completes commits the state at an index `i` of the successor list
(which is in the order KL, LCL, LCR) such that every candidate before `i` is penalised
(KL slowed, lane change with a predicted collision), and, if the committed candidate is
itself penalised, then every candidate is penalised and `i` is the first index. So the
committed state is the first unpenalised candidate if one exists and the first candidate
otherwise; a penalised candidate is never committed while an unpenalised one exists; and
from maneuver state KL, when every lane-change candidate has a predicted collision, KL is
committed. A cycle with a non-empty successor list completes whenever the prediction map has
the keys `0 .. size-1` with non-empty sequences. -/
theorem committed_state_preference (P : Params) (H : Helpers) (ego : Vehicle) (c : Cycle)
    (init : Bool) :
    (predictionsIndexed c.predictions → successorStates ego ≠ [] →
      ∃ out, implementNextTrajectory P H ego c init = some out) ∧
    ∀ out, implementNextTrajectory P H ego c init = some out →
      ∃ st i,
        candidateLoop P H ego c (successorStates ego) (initialLoopState c init) = some st ∧
        (successorStates ego)[i]? = some out.ego.state ∧
        (∀ (j : Nat) (it : String), j < i → (successorStates ego)[j]? = some it →
          candidatePenalised P H ego c init st it j) ∧
        (candidatePenalised P H ego c init st out.ego.state i →
          i = 0 ∧ ∀ (j : Nat) (it : String), (successorStates ego)[j]? = some it →
            candidatePenalised P H ego c init st it j) ∧
        (ego.state = "KL" →
          (∀ (j : Nat) (it : String), (successorStates ego)[j]? = some it → it ≠ "KL" →
            candidatePenalised P H ego c init st it j) →
          out.ego.state = "KL") := by
  refine ⟨fun hidx hne => implementNextTrajectory_total P H ego c init hidx hne, ?_⟩
  intro out hout
  obtain ⟨st, hst, hcommit⟩ := implementNextTrajectory_eq_some P H ego c init out hout
  have hinv := candidateLoop_successors P H ego c init st hst
  have hk := successorStates_known ego
  have hsort := successorStates_sorted ego
  obtain ⟨_, _, cS, _, _, _, _⟩ := commit_eq_some ego c _ st out hcommit
  have hcne : st.costs ≠ [] := by
    intro h0
    have hl := hinv.lenC
    rw [h0] at hl
    have : successorStates ego = [] := List.length_eq_zero.1 hl.symm
    rw [this] at cS
    simp at cS
  obtain ⟨v, hv1, hv2, hv3⟩ := minElementIndex_spec st.costs hcne
  obtain ⟨ci, hci, hciP, hciN⟩ := row_cost P H ego c init _ st hinv hk _ _ cS
  have hvci : v = ci := Option.some.inj (hv1.symm.trans hci)
  have hrank : ∀ it : String, ((stateRank it : ℕ) : ℚ) ≤ 2 := by
    intro it
    exact_mod_cast stateRank_le it
  have hrank0 : ∀ it : String, (0 : ℚ) ≤ ((stateRank it : ℕ) : ℚ) := fun it => Nat.cast_nonneg _
  -- the committed cost is at least the rank of the committed state in tenths
  have hlow : (stateRank out.ego.state : ℚ) / 10 ≤ v := by
    rw [hvci]
    by_cases hp : candidatePenalised P H ego c init st out.ego.state (minElementIndex st.costs)
    · rw [hciP hp]; linarith
    · rw [hciN hp]
  have hall : candidatePenalised P H ego c init st out.ego.state (minElementIndex st.costs) →
      ∀ (j : Nat) (it : String), (successorStates ego)[j]? = some it →
        candidatePenalised P H ego c init st it j := by
    intro hp j it hj
    by_contra hn
    obtain ⟨cj, hcj, _, hcjN⟩ := row_cost P H ego c init _ st hinv hk j it hj
    have h1 := hv2 j cj hcj
    rw [hvci, hciP hp, hcjN hn] at h1
    have := hrank it
    have := hrank0 out.ego.state
    linarith
  have hfirst : candidatePenalised P H ego c init st out.ego.state (minElementIndex st.costs) →
      minElementIndex st.costs = 0 := by
    intro hp
    by_contra hne0
    have hpos : 0 < minElementIndex st.costs := Nat.pos_of_ne_zero hne0
    have hlen : 0 < (successorStates ego).length := by
      rw [List.getElem?_eq_some_iff] at cS
      obtain ⟨h, _⟩ := cS
      omega
    have h0 : (successorStates ego)[0]? = some ((successorStates ego)[0]) :=
      List.getElem?_eq_getElem hlen
    obtain ⟨c0, hc0, hc0P, _⟩ := row_cost P H ego c init _ st hinv hk 0 _ h0
    have hp0 := hall hp 0 _ h0
    have h1 := hv3 0 c0 hpos hc0
    rw [hvci, hciP hp, hc0P hp0] at h1
    have hr : stateRank ((successorStates ego)[0]) < stateRank out.ego.state :=
      rank_lt_of_sorted _ hsort 0 _ _ _ hpos h0 cS
    have hr2 : ((stateRank ((successorStates ego)[0]) : ℕ) : ℚ) <
        ((stateRank out.ego.state : ℕ) : ℚ) := by exact_mod_cast hr
    linarith
  refine ⟨st, minElementIndex st.costs, hst, cS, ?_, ?_, ?_⟩
  · intro j it hji hj
    by_contra hn
    obtain ⟨cj, hcj, _, hcjN⟩ := row_cost P H ego c init _ st hinv hk j it hj
    have h1 := hv3 j cj hji hcj
    rw [hcjN hn] at h1
    have hr : stateRank it < stateRank out.ego.state :=
      rank_lt_of_sorted _ hsort j _ _ _ hji hj cS
    have hr2 : ((stateRank it : ℕ) : ℚ) < ((stateRank out.ego.state : ℕ) : ℚ) := by
      exact_mod_cast hr
    linarith
  · intro hp
    exact ⟨hfirst hp, hall hp⟩
  · intro hKL hlc
    by_contra hne
    have hp := hlc _ _ cS hne
    have h0 := hfirst hp
    rw [h0] at cS
    have : (successorStates ego)[0]? = some "KL" := by
      simp [successorStates, hKL]
    rw [this] at cS
    exact hne (Option.some.inj cS).symm

/-- C5 fails on the code with four lanes: with the ego in state LCR in lane 2 of 4 (goal
lane 3), an empty carried-over path and `current_lane = 2`, the only candidate is LCR, the
hard-coded guard `current_lane < 2` skips the synthesiser, and the committed path is empty. -/
theorem implementNextTrajectory_four_lanes_empty_path :
    (emptyCycle 20 2).previous_x_path.length ≤ 50 ∧
    (emptyCycle 20 2).previous_x_path.length = (emptyCycle 20 2).previous_y_path.length ∧
    (0 : Int) ≤ (mkVehicle 2 0 0 "LCR" 3 4).lane ∧
    (mkVehicle 2 0 0 "LCR" 3 4).lane < (mkVehicle 2 0 0 "LCR" 3 4).lanes_available ∧
    (emptyCycle 20 2).current_lane = (mkVehicle 2 0 0 "LCR" 3 4).lane ∧
    successorStates (mkVehicle 2 0 0 "LCR" 3 4) = ["LCR"] ∧
    implementNextTrajectory sampleParams sampleHelpers (mkVehicle 2 0 0 "LCR" 3 4)
        (emptyCycle 20 2) false =
      some { ego := mkVehicle 2 0 0 "LCR" 2 4, next_vals_x := [], next_vals_y := [],
             r_vel := 20, init_acc_over := false } := by
  refine ⟨by decide, rfl, by decide, by decide, rfl, by decide, ?_⟩
  simp [implementNextTrajectory, successorStates, mkVehicle, candidateLoop, candidateStep,
    emptyCycle, initialLoopState, collisionEvent, scanPredictions, commit, minElementIndex,
    minElementFrom]

/-- The state LCL is a successor only away from lane 0. -/
theorem successorStates_LCL_lane (ego : Vehicle) (h : "LCL" ∈ successorStates ego) :
    ego.lane ≠ 0 := by
  intro h0
  unfold successorStates at h
  split_ifs at h <;> simp_all

/-- The state LCR is a successor only away from the last lane. -/
theorem successorStates_LCR_lane (ego : Vehicle) (h : "LCR" ∈ successorStates ego) :
    ego.lane ≠ ego.lanes_available - 1 := by
  intro h0
  unfold successorStates at h
  split_ifs at h <;> simp_all

/-- With at most three lanes, the ego lane in `[0, lanes_available)`, `current_lane` equal to
the ego lane and a carried-over path of at most 50 samples, every committed path has exactly
50 samples; such a cycle completes whenever the successor list is non-empty and the
prediction map has the keys `0 .. size-1` with non-empty sequences. -/
theorem implementNextTrajectory_path_length (P : Params) (H : Helpers) (ego : Vehicle)
    (c : Cycle) (init : Bool) (hn : c.previous_x_path.length ≤ 50)
    (h0 : 0 ≤ ego.lane) (h1 : ego.lane < ego.lanes_available) (h3 : ego.lanes_available ≤ 3)
    (hc : c.current_lane = ego.lane) :
    (predictionsIndexed c.predictions → successorStates ego ≠ [] →
      ∃ out, implementNextTrajectory P H ego c init = some out) ∧
    ∀ out, implementNextTrajectory P H ego c init = some out →
      out.next_vals_x.length = 50 ∧ out.next_vals_y.length = 50 := by
  refine ⟨fun hidx hne => implementNextTrajectory_total P H ego c init hidx hne, ?_⟩
  intro out hout
  obtain ⟨st, hst, hcommit⟩ := implementNextTrajectory_eq_some P H ego c init out hout
  have hinv := candidateLoop_successors P H ego c init st hst
  obtain ⟨cX, cY, cS, _, _, _, _⟩ := commit_eq_some ego c _ st out hcommit
  have hlen : ∀ (r_vel : ℚ) (tgt : Int),
      (generateXYTrajectory P H ego [] [] c.previous_x_path c.previous_y_path
        c.map_s_waypoints c.map_x_waypoints c.map_y_waypoints r_vel tgt).1.length = 50 ∧
      (generateXYTrajectory P H ego [] [] c.previous_x_path c.previous_y_path
        c.map_s_waypoints c.map_x_waypoints c.map_y_waypoints r_vel tgt).2.length = 50 := by
    intro r_vel tgt
    have h := generateXYTrajectory_length P H ego c.previous_x_path c.previous_y_path
      c.map_s_waypoints c.map_x_waypoints c.map_y_waypoints r_vel tgt
    rw [newSampleCount_le _ hn] at h
    constructor
    · rw [h.1]; omega
    · rw [h.2]; omega
  have hmem := mem_of_getElem_eq _ _ _ cS
  rcases successorStates_known ego _ hmem with e | e | e
  · rw [e] at cS
    obtain ⟨_, _, h3x, h4y, _⟩ := hinv.kl _ cS
    rw [Option.some.inj (cX.symm.trans h3x), Option.some.inj (cY.symm.trans h4y)]
    exact hlen _ _
  · rw [e] at cS hmem
    obtain ⟨tl, tx, ty, coll, _, h2, h3y, _, _, _, hgd, _⟩ := hinv.lcl _ cS
    have hguard : c.current_lane > 0 := by
      have := successorStates_LCL_lane ego hmem
      omega
    obtain ⟨_, _, g3, g4⟩ := hgd hguard
    rw [Option.some.inj (cX.symm.trans h2), Option.some.inj (cY.symm.trans h3y), g3, g4]
    exact hlen _ _
  · rw [e] at cS hmem
    obtain ⟨tl, tx, ty, coll, _, h2, h3y, _, _, _, hgd, _⟩ := hinv.lcr _ cS
    have hguard : c.current_lane < 2 := by
      have := successorStates_LCR_lane ego hmem
      omega
    obtain ⟨_, _, g3, g4⟩ := hgd hguard
    rw [Option.some.inj (cX.symm.trans h2), Option.some.inj (cY.symm.trans h3y), g3, g4]
    exact hlen _ _

/-! ## The collision scan on a map with the keys `0 .. size-1` -/

/-- A key found by `lookup` belongs to an entry of the map. -/
theorem lookup_mem {β : Type} (l : List (Int × β)) (k : Int) (v : β)
    (h : l.lookup k = some v) : (k, v) ∈ l := by
  induction l with
  | nil => simp at h
  | cons e t ih =>
    obtain ⟨k1, v1⟩ := e
    rw [List.lookup_cons] at h
    by_cases hk : k = k1
    · subst hk
      simp at h
      simp [h]
    · have hb : (k == k1) = false := by simpa using hk
      rw [hb] at h
      exact List.mem_cons_of_mem _ (ih h)

/-- With pairwise different keys, `lookup` finds every entry. -/
theorem lookup_of_mem {β : Type} (l : List (Int × β)) (hnd : (l.map Prod.fst).Nodup)
    (k : Int) (v : β) (h : (k, v) ∈ l) : l.lookup k = some v := by
  induction l with
  | nil => simp at h
  | cons e t ih =>
    obtain ⟨k1, v1⟩ := e
    simp only [List.map_cons, List.nodup_cons] at hnd
    rw [List.lookup_cons]
    rcases List.mem_cons.1 h with heq | hmem
    · simp only [Prod.mk.injEq] at heq
      simp [heq.1, heq.2]
    · have hk : k ≠ k1 := by
        intro hk
        apply hnd.1
        rw [← hk]
        exact List.mem_map.2 ⟨(k, v), hmem, rfl⟩
      have hb : (k == k1) = false := by simpa using hk
      rw [hb]
      exact ih hnd.2 hmem

/-- What `predictions[j].at(0)` reads. -/
theorem predictionsAt_eq_some (predictions : List (Int × List Vehicle)) (j : Nat)
    (first : Vehicle) (pred : List Vehicle) :
    predictionsAt predictions j = some (first, pred) ↔
      predictions.lookup (j : Int) = some pred ∧ pred.head? = some first := by
  unfold predictionsAt
  cases hl : predictions.lookup (j : Int) with
  | none => simp
  | some q =>
    cases q with
    | nil => simp; intro h; rw [h]; simp
    | cons a r =>
      simp only [Option.some.injEq, Prod.mk.injEq]
      constructor
      · rintro ⟨h1, h2⟩
        rw [← h2]
        exact ⟨rfl, by simp [h1]⟩
      · rintro ⟨h1, h2⟩
        rw [← h1] at h2
        simp at h2
        exact ⟨h2, h1⟩

/-- A map on which every access `predictions[j].at(0)`, `j < size`, succeeds has exactly the
keys `0 .. size-1`. -/
theorem predictionsIndexed_keys (predictions : List (Int × List Vehicle))
    (hidx : predictionsIndexed predictions) :
    List.Perm ((List.range predictions.length).map (fun j : Nat => (j : Int)))
      (predictions.map Prod.fst) := by
  apply List.Subperm.perm_of_length_le
  · apply List.subperm_of_subset
    · exact List.Nodup.map (fun a b h => by exact_mod_cast h) (List.nodup_range _)
    · intro k hk
      obtain ⟨j, hj, rfl⟩ := List.mem_map.1 hk
      have hlt : j < predictions.length := List.mem_range.1 hj
      obtain ⟨⟨first, pred⟩, hfp⟩ := Option.isSome_iff_exists.1 (hidx j hlt)
      have := lookup_mem _ _ _ ((predictionsAt_eq_some _ _ _ _).1 hfp).1
      exact List.mem_map.2 ⟨_, this, rfl⟩
  · simp

/-- On a prediction map with the keys `0 .. size-1` and non-empty sequences the three nested
loops return a flag, and the flag is `true` exactly when some tracked vehicle of the current
or target lane has a predicted snapshot closer than the reference distance to some sample of
the candidate path. -/
theorem collisionEvent_indexed (P : Params) (H : Helpers)
    (predictions : List (Int × List Vehicle)) (hidx : predictionsIndexed predictions)
    (r_vel : ℚ) (current_lane target_lane : Int) (trajX trajY : List ℚ) :
    ∃ b, collisionEvent P H predictions r_vel current_lane target_lane trajX trajY = some b ∧
      (b = true ↔
        collisionSpec H (refDistLC P r_vel) predictions current_lane target_lane trajX trajY) := by
  obtain ⟨b, hb, hiff⟩ := scanPredictions_spec H (refDistLC P r_vel) predictions current_lane
    target_lane trajX trajY predictions.length 0
    (by intro j _ h2; exact hidx j (by omega))
  refine ⟨b, hb, hiff.trans ⟨?_, ?_⟩⟩
  · rintro ⟨j, first, pred, _, _, hat, hl, hnear⟩
    obtain ⟨h1, h2⟩ := (predictionsAt_eq_some _ _ _ _).1 hat
    exact ⟨(_, pred), lookup_mem _ _ _ h1, first, h2, hl, hnear⟩
  · rintro ⟨⟨k, pred⟩, he, first, hfirst, hl, hnear⟩
    have hperm := predictionsIndexed_keys predictions hidx
    have hnd : (predictions.map Prod.fst).Nodup :=
      (List.Perm.nodup_iff hperm).1
        (List.Nodup.map (fun a b h => by exact_mod_cast h) (List.nodup_range _))
    have hk : k ∈ (List.range predictions.length).map (fun j : Nat => (j : Int)) :=
      (List.Perm.mem_iff hperm).2 (List.mem_map.2 ⟨(k, pred), he, rfl⟩)
    obtain ⟨j, hj, rfl⟩ := List.mem_map.1 hk
    have hlt : j < predictions.length := List.mem_range.1 hj
    refine ⟨j, first, pred, Nat.zero_le _, by omega, ?_, hl, hnear⟩
    exact (predictionsAt_eq_some _ _ _ _).2 ⟨lookup_of_mem _ hnd _ _ he, hfirst⟩

/-! ## Frame of the path synthesiser -/

/-- C15: called with empty output vectors and a carried-over path of `n ≤ 50` samples (x and
y of equal length `n`), `generateXYTrajectory` returns the carried-over samples in the same
order followed by exactly `50 - n` new samples, in both coordinates; for `n = 50` the output
is the carried-over path. -/
theorem generateXYTrajectory_frame (P : Params) (H : Helpers) (ego : Vehicle)
    (px py ms mx my : List ℚ) (r_vel : ℚ) (target_lane : Int)
    (hn : px.length ≤ 50) (heq : py.length = px.length) :
    (∃ newX newY,
      generateXYTrajectory P H ego [] [] px py ms mx my r_vel target_lane =
        (px ++ newX, py ++ newY) ∧
      newX.length = 50 - px.length ∧ newY.length = 50 - px.length) ∧
    (px.length = 50 →
      generateXYTrajectory P H ego [] [] px py ms mx my r_vel target_lane = (px, py)) := by
  have hy : copyPrevious px.length py = py := by
    rw [← heq]
    exact copyPrevious_self py
  have hform : ∃ newX newY,
      generateXYTrajectory P H ego [] [] px py ms mx my r_vel target_lane =
        (px ++ newX, py ++ newY) ∧
      newX.length = 50 - px.length ∧ newY.length = 50 - px.length := by
    unfold generateXYTrajectory
    simp only [List.nil_append, copyPrevious_self, hy]
    refine ⟨_, _, rfl, ?_, ?_⟩
    · rw [List.length_map, resampleLoop_length, newSampleCount_le _ hn]
    · rw [List.length_map, resampleLoop_length, newSampleCount_le _ hn]
  refine ⟨hform, ?_⟩
  intro h50
  obtain ⟨newX, newY, hgen, hx, hyl⟩ := hform
  rw [h50] at hx hyl
  have e1 : newX = [] := List.length_eq_zero.1 (by omega)
  have e2 : newY = [] := List.length_eq_zero.1 (by omega)
  rw [hgen, e1, e2, List.append_nil, List.append_nil]

/-- Evaluation of C15 on a carried-over path of two samples. -/
theorem generateXYTrajectory_frame_witness :
    ([1, 2] : List ℚ).length ≤ 50 ∧ ([3, 4] : List ℚ).length = ([1, 2] : List ℚ).length ∧
    ∃ newX newY,
      generateXYTrajectory sampleParams sampleHelpers (mkVehicle 1 0 0 "KL" 1 3) [] []
        [1, 2] [3, 4] [] [] [] 20 1 = ([1, 2] ++ newX, [3, 4] ++ newY) ∧
      newX.length = 50 - ([1, 2] : List ℚ).length ∧
      newY.length = 50 - ([1, 2] : List ℚ).length :=
  ⟨by decide, rfl,
    (generateXYTrajectory_frame sampleParams sampleHelpers (mkVehicle 1 0 0 "KL" 1 3)
      [1, 2] [3, 4] [] [] [] 20 1 (by decide) rfl).1⟩

/-! ## The forward predictor -/

/-- The vehicle pushed in iteration `k` of the loop of `generatePredictions`. -/
theorem predictionLoop_getElem (P : Params) (H : Helpers) (D : MemberDefaults)
    (self : Vehicle) (ms mx my : List ℚ) (remaining : Nat) :
    ∀ (curr_s : ℚ) (k : Nat), k < remaining →
      (predictionLoop P H D self ms mx my remaining curr_s)[k]? =
        some (constructVehicle D self.lane (curr_s + ((k : ℚ) + 1) * self.v * P.DELTA_T)
          self.d self.v 0
          (H.getXY (curr_s + ((k : ℚ) + 1) * self.v * P.DELTA_T) self.d ms mx my).1
          (H.getXY (curr_s + ((k : ℚ) + 1) * self.v * P.DELTA_T) self.d ms mx my).2
          (-1) "CS") := by
  induction remaining with
  | zero => intro curr_s k hk; omega
  | succ r ih =>
    intro curr_s k hk
    cases k with
    | zero =>
      simp only [predictionLoop, List.getElem?_cons_zero, Nat.cast_zero, zero_add, one_mul]
    | succ m =>
      simp only [predictionLoop, List.getElem?_cons_succ]
      rw [ih _ m (by omega)]
      have e : curr_s + self.v * P.DELTA_T + ((m : ℚ) + 1) * self.v * P.DELTA_T =
          curr_s + (((m + 1 : ℕ) : ℚ) + 1) * self.v * P.DELTA_T := by
        push_cast
        ring
      rw [e]

/-- The loop of `generatePredictions` pushes one vehicle per iteration. -/
theorem predictionLoop_length (P : Params) (H : Helpers) (D : MemberDefaults)
    (self : Vehicle) (ms mx my : List ℚ) (remaining : Nat) :
    ∀ curr_s : ℚ, (predictionLoop P H D self ms mx my remaining curr_s).length = remaining := by
  induction remaining with
  | zero => intro curr_s; rfl
  | succ r ih => intro curr_s; simp [predictionLoop, ih]

/-- C16: for `pred_size ≥ 0`, `generatePredictions` leaves the source vehicle unchanged and
returns exactly `pred_size` snapshots; the `k`-th one (`k = 0 .. pred_size-1`) has
`s = s + (k+1) * v * DELTA_T`, the lane, `d` and `v` of the source vehicle, `(x, y)` equal to
the coordinate map applied to its `(s, d)`, and maneuver state "CS". -/
theorem generatePredictions_snapshots (P : Params) (H : Helpers) (D : MemberDefaults)
    (self : Vehicle) (ms mx my : List ℚ) (pred_size : Int) (hp : 0 ≤ pred_size) :
    (generatePredictions P H D self ms mx my pred_size).1 = self ∧
    ((generatePredictions P H D self ms mx my pred_size).2.length : Int) = pred_size ∧
    ∀ k : Nat, (k : Int) < pred_size →
      ∃ snap, (generatePredictions P H D self ms mx my pred_size).2[k]? = some snap ∧
        snap.s = self.s + ((k : ℚ) + 1) * self.v * P.DELTA_T ∧
        snap.lane = self.lane ∧ snap.d = self.d ∧ snap.v = self.v ∧
        (snap.x, snap.y) = H.getXY snap.s snap.d ms mx my ∧
        snap.state = "CS" := by
  refine ⟨rfl, ?_, ?_⟩
  · simp only [generatePredictions, predictionLoop_length]
    exact Int.toNat_of_nonneg hp
  · intro k hk
    have hk2 : k < pred_size.toNat := by omega
    refine ⟨_, predictionLoop_getElem P H D self ms mx my _ self.s k hk2, ?_⟩
    simp [constructVehicle]

/-- Evaluation of C16 for three snapshots of a vehicle at `s = 100` with speed 10. -/
theorem generatePredictions_snapshots_witness :
    (0 : Int) ≤ 3 ∧
    ((generatePredictions sampleParams sampleHelpers ⟨0, 3⟩ (mkVehicle 1 100 10 "CS" 1 3)
      [] [] [] 3).2.length : Int) = 3 :=
  ⟨by decide,
    (generatePredictions_snapshots sampleParams sampleHelpers ⟨0, 3⟩
      (mkVehicle 1 100 10 "CS" 1 3) [] [] [] 3 (by decide)).2.1⟩

/-! ## Monotonicity, latch and non-interference of the regulator -/

/-- With a non-negative incoming speed and non-negative steps, a call of `regulateVelocity`
during which some vehicle is too close does not raise the reference speed. -/
theorem regulateVelocity_le_of_too_close (P : Params) (ego : Vehicle)
    (vehicles : List (Int × Vehicle)) (ref_vel : ℚ) (current_lane target_lane : Int)
    (previous_path_x : List ℚ) (init_acc_over : Bool)
    (h0 : 0 ≤ ref_vel) (h1 : 0 ≤ P.REF_SPEED_CHANGE) (h2 : 0 ≤ P.EMG_SPEED_CHANGE)
    (htc : tooCloseSpec P ego vehicles current_lane target_lane previous_path_x.length) :
    (regulateVelocity P ego vehicles ref_vel current_lane target_lane previous_path_x
      init_acc_over).1 ≤ ref_vel := by
  have ht := (regulateFlags_too_close P ego vehicles current_lane target_lane
    previous_path_x).2 htc
  unfold regulateVelocity
  simp only [ht, if_true]
  split_ifs <;> simp only [] <;> linarith

/-- The clamp keeps the speed left by `regulateVelocity` non-negative. -/
theorem regulateVelocity_fst_nonneg (P : Params) (ego : Vehicle)
    (vehicles : List (Int × Vehicle)) (ref_vel : ℚ) (current_lane target_lane : Int)
    (previous_path_x : List ℚ) (init_acc_over : Bool) :
    0 ≤ (regulateVelocity P ego vehicles ref_vel current_lane target_lane previous_path_x
      init_acc_over).1 := by
  rw [regulateVelocity_fst_indep P ego vehicles ref_vel current_lane target_lane
    previous_path_x init_acc_over false]
  unfold regulateVelocity
  simp only []
  split_ifs <;> first | exact le_refl _ | exact le_of_lt (not_le.mp ‹_›)

/-- Over consecutive calls during each of which some vehicle is too close, the reference
speed never rises. -/
theorem regulateRun_chain (P : Params) (h1 : 0 ≤ P.REF_SPEED_CHANGE)
    (h2 : 0 ≤ P.EMG_SPEED_CHANGE) (calls : List RegulateCall) :
    ∀ (ref_vel : ℚ) (init_acc_over : Bool), 0 ≤ ref_vel →
      (∀ call ∈ calls, tooCloseSpec P call.ego call.vehicles call.current_lane
        call.target_lane call.previous_path_x.length) →
      List.Chain (fun a b => b ≤ a) ref_vel
        ((regulateRun P calls (ref_vel, init_acc_over)).map Prod.fst) := by
  induction calls with
  | nil => intro _ _ _ _; exact List.Chain.nil
  | cons call rest ih =>
    intro ref_vel init h0 htc
    simp only [regulateRun, List.map_cons]
    refine List.Chain.cons ?_ ?_
    · exact regulateVelocity_le_of_too_close P _ _ _ _ _ _ _ h0 h1 h2
        (htc call (List.mem_cons_self _ _))
    · exact ih _ _ (regulateVelocity_fst_nonneg P _ _ _ _ _ _ _)
        (fun c hc => htc c (List.mem_cons_of_mem _ hc))

/-- C17: for a call of `regulateVelocity` with a non-negative incoming reference speed and
non-negative step constants during which some vehicle is too close (projected gap in
`(0, 30)` in the current or target lane), the outgoing reference speed is at most the
incoming one; and over any sequence of consecutive calls during each of which some vehicle
is too close, the reference speed is non-increasing from call to call. -/
theorem regulateVelocity_too_close_monotone (P : Params) (ego : Vehicle)
    (vehicles : List (Int × Vehicle)) (ref_vel : ℚ) (current_lane target_lane : Int)
    (previous_path_x : List ℚ) (init_acc_over : Bool)
    (h0 : 0 ≤ ref_vel) (h1 : 0 ≤ P.REF_SPEED_CHANGE) (h2 : 0 ≤ P.EMG_SPEED_CHANGE)
    (htc : tooCloseSpec P ego vehicles current_lane target_lane previous_path_x.length) :
    (regulateVelocity P ego vehicles ref_vel current_lane target_lane previous_path_x
      init_acc_over).1 ≤ ref_vel ∧
    ∀ calls : List RegulateCall,
      (∀ call ∈ calls, tooCloseSpec P call.ego call.vehicles call.current_lane
        call.target_lane call.previous_path_x.length) →
      List.Chain (fun a b => b ≤ a) ref_vel
        ((regulateRun P calls (ref_vel, init_acc_over)).map Prod.fst) :=
  ⟨regulateVelocity_le_of_too_close P ego vehicles ref_vel current_lane target_lane
      previous_path_x init_acc_over h0 h1 h2 htc,
    fun calls hcalls => regulateRun_chain P h1 h2 calls ref_vel init_acc_over h0 hcalls⟩

/-- Evaluation of C17 with a stationary vehicle 15 ahead in lane 1 and reference speed 20. -/
theorem regulateVelocity_too_close_monotone_witness :
    (0 : ℚ) ≤ 20 ∧ 0 ≤ sampleParams.REF_SPEED_CHANGE ∧ 0 ≤ sampleParams.EMG_SPEED_CHANGE ∧
    tooCloseSpec sampleParams (mkVehicle 1 100 0 "KL" 1 3)
      [(0, mkVehicle 1 115 0 "CS" 1 3)] 1 1 ([] : List ℚ).length ∧
    (regulateVelocity sampleParams (mkVehicle 1 100 0 "KL" 1 3)
      [(0, mkVehicle 1 115 0 "CS" 1 3)] 20 1 1 [] false).1 ≤ 20 :=
  ⟨by norm_num, by norm_num [sampleParams], by norm_num [sampleParams],
    by
      refine ⟨_, List.mem_singleton_self _, Or.inl rfl, ?_, ?_⟩ <;>
        norm_num [projectedGap, mkVehicle],
    (regulateVelocity_too_close_monotone sampleParams (mkVehicle 1 100 0 "KL" 1 3)
      [(0, mkVehicle 1 115 0 "CS" 1 3)] 20 1 1 [] false (by norm_num)
      (by norm_num [sampleParams]) (by norm_num [sampleParams])
      (by
        refine ⟨_, List.mem_singleton_self _, Or.inl rfl, ?_, ?_⟩ <;>
          norm_num [projectedGap, mkVehicle])).1⟩

/-- C18 as stated fails: without tracked vehicles and with the incoming reference speed 49.4
just below `REF_SPEED = 49.5`, the call raises the speed to 49.624, which has reached the
cruise target, but the latch stays `false`: it is only set by a call that starts at or above
the cruise target. -/
theorem regulateVelocity_latch_counterexample :
    ¬ tooCloseSpec sampleParams (mkVehicle 1 0 0 "KL" 1 3) [] 1 1 ([] : List ℚ).length ∧
    sampleParams.REF_SPEED ≤
      (regulateVelocity sampleParams (mkVehicle 1 0 0 "KL" 1 3) [] (247/5) 1 1 [] false).1 ∧
    (regulateVelocity sampleParams (mkVehicle 1 0 0 "KL" 1 3) [] (247/5) 1 1 [] false).2
      = false := by
  refine ⟨?_, ?_, ?_⟩
  · simp [tooCloseSpec, gapBelow]
  · norm_num [regulateVelocity, regulateFlags, regulateLoop, sampleParams]
  · norm_num [regulateVelocity, regulateFlags, regulateLoop, sampleParams]

/-- C18 (amended): after a call of `regulateVelocity` the latch is true exactly when it was
true before the call, or no vehicle is too close and the incoming reference speed had
already reached the cruise target (it is not below `REF_SPEED`); the call never changes the
latch from true to false. -/
theorem regulateVelocity_latch (P : Params) (ego : Vehicle) (vehicles : List (Int × Vehicle))
    (ref_vel : ℚ) (current_lane target_lane : Int) (previous_path_x : List ℚ)
    (init_acc_over : Bool) :
    ((regulateVelocity P ego vehicles ref_vel current_lane target_lane previous_path_x
        init_acc_over).2 = true ↔
      (init_acc_over = true ∨
        (¬ tooCloseSpec P ego vehicles current_lane target_lane previous_path_x.length ∧
          ¬ ref_vel < P.REF_SPEED))) ∧
    (init_acc_over = true →
      (regulateVelocity P ego vehicles ref_vel current_lane target_lane previous_path_x
        init_acc_over).2 = true) := by
  have ht := regulateFlags_too_close P ego vehicles current_lane target_lane previous_path_x
  have key : (regulateVelocity P ego vehicles ref_vel current_lane target_lane previous_path_x
        init_acc_over).2 = true ↔
      (init_acc_over = true ∨
        (¬ tooCloseSpec P ego vehicles current_lane target_lane previous_path_x.length ∧
          ¬ ref_vel < P.REF_SPEED)) := by
    rw [← ht]
    unfold regulateVelocity
    simp only []
    cases init_acc_over <;> split_ifs <;> simp_all
  exact ⟨key, fun h => key.2 (Or.inl h)⟩

/-- The flags of the regulator only depend on the relevant vehicles. -/
theorem gapBelow_congr (P : Params) (ego : Vehicle) (vs1 vs2 : List (Int × Vehicle))
    (current_lane target_lane : Int) (n : Nat) (bound : ℚ) (hb : bound ≤ 30)
    (hagree : ∀ e : Int × Vehicle, relevantVehicle P ego current_lane target_lane n e.2 →
      (e ∈ vs1 ↔ e ∈ vs2)) :
    gapBelow P ego vs1 current_lane target_lane n bound ↔
      gapBelow P ego vs2 current_lane target_lane n bound := by
  constructor
  · rintro ⟨e, he, hl, hp, hlt⟩
    exact ⟨e, (hagree e ⟨hl, hp, lt_of_lt_of_le hlt hb⟩).1 he, hl, hp, hlt⟩
  · rintro ⟨e, he, hl, hp, hlt⟩
    exact ⟨e, (hagree e ⟨hl, hp, lt_of_lt_of_le hlt hb⟩).2 he, hl, hp, hlt⟩

/-- Two vehicle sets that agree on the relevant vehicles give the same result. -/
theorem regulateVelocity_congr (P : Params) (ego : Vehicle) (vs1 vs2 : List (Int × Vehicle))
    (ref_vel : ℚ) (current_lane target_lane : Int) (previous_path_x : List ℚ)
    (init_acc_over : Bool)
    (hagree : ∀ e : Int × Vehicle,
      relevantVehicle P ego current_lane target_lane previous_path_x.length e.2 →
      (e ∈ vs1 ↔ e ∈ vs2)) :
    regulateVelocity P ego vs1 ref_vel current_lane target_lane previous_path_x init_acc_over =
    regulateVelocity P ego vs2 ref_vel current_lane target_lane previous_path_x
      init_acc_over := by
  have h30 := gapBelow_congr P ego vs1 vs2 current_lane target_lane previous_path_x.length 30
    (le_refl _) hagree
  have h10 := gapBelow_congr P ego vs1 vs2 current_lane target_lane previous_path_x.length 10
    (by norm_num) hagree
  have e1 : (regulateFlags P ego vs1 current_lane target_lane previous_path_x).1 =
      (regulateFlags P ego vs2 current_lane target_lane previous_path_x).1 := by
    rw [Bool.eq_iff_iff, regulateFlags_too_close, regulateFlags_too_close]
    exact h30
  have e2 : (regulateFlags P ego vs1 current_lane target_lane previous_path_x).2 =
      (regulateFlags P ego vs2 current_lane target_lane previous_path_x).2 := by
    rw [Bool.eq_iff_iff, regulateFlags_emergency, regulateFlags_emergency]
    exact h10
  unfold regulateVelocity
  simp only [e1, e2]

/-- C19: two tracked-vehicle sets that agree on the vehicles whose lane is the current or
the target lane and whose projected position is strictly ahead of the ego by less than 30
give the same reference speed and the same latch; in particular the result is the one for
the set restricted to these vehicles, so vehicles in other lanes, behind or level with the
ego, or 30 or more ahead have no influence. -/
theorem regulateVelocity_noninterference (P : Params) (ego : Vehicle)
    (vs1 vs2 : List (Int × Vehicle)) (ref_vel : ℚ) (current_lane target_lane : Int)
    (previous_path_x : List ℚ) (init_acc_over : Bool)
    (hagree : ∀ e : Int × Vehicle,
      relevantVehicle P ego current_lane target_lane previous_path_x.length e.2 →
      (e ∈ vs1 ↔ e ∈ vs2)) :
    regulateVelocity P ego vs1 ref_vel current_lane target_lane previous_path_x
        init_acc_over =
      regulateVelocity P ego vs2 ref_vel current_lane target_lane previous_path_x
        init_acc_over ∧
    regulateVelocity P ego vs1 ref_vel current_lane target_lane previous_path_x
        init_acc_over =
      regulateVelocity P ego
        (vs1.filter (fun e => decide
          (relevantVehicle P ego current_lane target_lane previous_path_x.length e.2)))
        ref_vel current_lane target_lane previous_path_x init_acc_over := by
  refine ⟨regulateVelocity_congr P ego vs1 vs2 ref_vel current_lane target_lane
    previous_path_x init_acc_over hagree, ?_⟩
  apply regulateVelocity_congr
  intro e he
  simp [List.mem_filter, he]

/-- Evaluation of C19: a vehicle in lane 0 and a vehicle behind the ego are dropped, the
vehicle 15 ahead in lane 1 is kept. -/
theorem regulateVelocity_noninterference_witness :
    (∀ e : Int × Vehicle,
      relevantVehicle sampleParams (mkVehicle 1 100 0 "KL" 1 3) 1 1 ([] : List ℚ).length e.2 →
      (e ∈ [(0, mkVehicle 1 115 0 "CS" 1 3), (1, mkVehicle 0 110 0 "CS" 1 3),
            (2, mkVehicle 1 90 0 "CS" 1 3)] ↔
        e ∈ [(0, mkVehicle 1 115 0 "CS" 1 3)])) ∧
    regulateVelocity sampleParams (mkVehicle 1 100 0 "KL" 1 3)
        [(0, mkVehicle 1 115 0 "CS" 1 3), (1, mkVehicle 0 110 0 "CS" 1 3),
          (2, mkVehicle 1 90 0 "CS" 1 3)] 20 1 1 [] false =
      regulateVelocity sampleParams (mkVehicle 1 100 0 "KL" 1 3)
        [(0, mkVehicle 1 115 0 "CS" 1 3)] 20 1 1 [] false :=
  have hag : ∀ e : Int × Vehicle,
      relevantVehicle sampleParams (mkVehicle 1 100 0 "KL" 1 3) 1 1 ([] : List ℚ).length e.2 →
      (e ∈ [(0, mkVehicle 1 115 0 "CS" 1 3), (1, mkVehicle 0 110 0 "CS" 1 3),
            (2, mkVehicle 1 90 0 "CS" 1 3)] ↔
        e ∈ [(0, mkVehicle 1 115 0 "CS" 1 3)]) := by
    intro e he
    constructor
    · intro hm
      simp only [List.mem_cons, List.mem_singleton, List.not_mem_nil, or_false] at hm
      rcases hm with h | h | h
      · rw [h]; exact List.mem_singleton_self _
      · exfalso
        rw [h] at he
        simp [relevantVehicle, mkVehicle] at he
      · exfalso
        rw [h] at he
        norm_num [relevantVehicle, projectedGap, mkVehicle] at he
    · intro hm
      rw [List.mem_singleton.1 hm]
      exact List.mem_cons_self _ _
  ⟨hag, (regulateVelocity_noninterference sampleParams (mkVehicle 1 100 0 "KL" 1 3) _ _ 20 1 1
    [] false hag).1⟩

/-! ## End-to-end scenarios of the selector -/

/-- The speed left by the regulator when no vehicle is tracked. -/
theorem regulateVelocity_no_vehicles (P : Params) (ego : Vehicle) (ref_vel : ℚ)
    (current_lane target_lane : Int) (previous_path_x : List ℚ) (init_acc_over : Bool) :
    (regulateVelocity P ego [] ref_vel current_lane target_lane previous_path_x
      init_acc_over).1 =
      if ref_vel < P.REF_SPEED then max 0 (ref_vel + P.REF_SPEED_CHANGE) else max 0 ref_vel := by
  simp only [regulateVelocity, regulateFlags, regulateLoop, Bool.false_eq_true, if_false,
    ← clamp_eq_max]
  split_ifs <;> rfl

/-- The speed left by the regulator for the current lane 1 when the only tracked vehicle is
in lane 1 at `s + 15` with speed 0. -/
theorem regulateVelocity_single_lead (P : Params) (ego veh : Vehicle) (id : Int)
    (ref_vel : ℚ) (target_lane : Int) (previous_path_x : List ℚ) (init_acc_over : Bool)
    (hl : veh.lane = 1) (hs : veh.s = ego.s + 15) (hv : veh.v = 0) :
    (regulateVelocity P ego [(id, veh)] ref_vel 1 target_lane previous_path_x
        init_acc_over).1 = max 0 (ref_vel - P.REF_SPEED_CHANGE) := by
  have hf : regulateFlags P ego [(id, veh)] 1 target_lane previous_path_x = (true, false) := by
    simp only [regulateFlags, regulateLoop, hl, hs, hv, true_or, if_true, mul_zero, add_zero]
    norm_num
  unfold regulateVelocity
  rw [hf]
  simp only [if_true, Bool.false_eq_true, if_false, ← clamp_eq_max]
  split_ifs <;> rfl

/-- The ranks of the three states. -/
theorem stateRank_values :
    stateRank "KL" = 0 ∧ stateRank "LCL" = 1 ∧ stateRank "LCR" = 2 := by
  decide

/-- From maneuver state KL the first successor state is KL. -/
theorem successorStates_head_KL (ego : Vehicle) (hs : ego.state = "KL") :
    (successorStates ego)[0]? = some "KL" := by
  simp [successorStates, hs]

/-- Every cost pushed by the loop is non-negative. -/
theorem row_cost_nonneg (P : Params) (H : Helpers) (ego : Vehicle) (c : Cycle) (init : Bool)
    (states : List String) (st : LoopState) (hinv : LoopInv P H ego c init states st)
    (hk : ∀ it ∈ states, knownState it) (j : Nat) (w : ℚ) (hj : st.costs[j]? = some w) :
    0 ≤ w := by
  have hlt : j < states.length := by
    rw [List.getElem?_eq_some_iff] at hj
    obtain ⟨h, _⟩ := hj
    rw [hinv.lenC] at h
    exact h
  obtain ⟨cj, hcj, hP, hN⟩ := row_cost P H ego c init states st hinv hk j _
    (List.getElem?_eq_getElem hlt)
  have e : w = cj := Option.some.inj (hj.symm.trans hcj)
  have hr : (0 : ℚ) ≤ ((stateRank states[j] : ℕ) : ℚ) := Nat.cast_nonneg _
  by_cases hp : candidatePenalised P H ego c init st states[j] j
  · rw [e, hP hp]; linarith
  · rw [e, hN hp]; linarith

/-- From maneuver state KL, when the regulator does not reduce the speed of the KL
candidate below the incoming reference speed, a completed cycle commits KL with the
current lane as goal lane, the regulated speed and the path generated for KL. -/
theorem commit_KL_of_unpenalised (P : Params) (H : Helpers) (ego : Vehicle) (c : Cycle)
    (init : Bool) (out : Outcome) (hs : ego.state = "KL")
    (hout : implementNextTrajectory P H ego c init = some out)
    (hreg : ¬ (regulateVelocity P ego c.vehicles c.r_vel c.current_lane c.current_lane
      c.previous_x_path init).1 < c.r_vel) :
    out.ego.state = "KL" ∧ out.ego.goal_lane = c.current_lane ∧
    out.r_vel = (regulateVelocity P ego c.vehicles c.r_vel c.current_lane c.current_lane
      c.previous_x_path init).1 ∧
    out.next_vals_x = (generateXYTrajectory P H ego [] [] c.previous_x_path
      c.previous_y_path c.map_s_waypoints c.map_x_waypoints c.map_y_waypoints
      out.r_vel c.current_lane).1 ∧
    out.next_vals_y = (generateXYTrajectory P H ego [] [] c.previous_x_path
      c.previous_y_path c.map_s_waypoints c.map_x_waypoints c.map_y_waypoints
      out.r_vel c.current_lane).2 := by
  obtain ⟨st, hst, hcommit⟩ := implementNextTrajectory_eq_some P H ego c init out hout
  have hinv := candidateLoop_successors P H ego c init st hst
  have hk := successorStates_known ego
  obtain ⟨cX, cY, cS, cT, cV, _, _⟩ := commit_eq_some ego c _ st out hcommit
  have h0 := successorStates_head_KL ego hs
  obtain ⟨k1, k2, k3, k4, k5⟩ := hinv.kl 0 h0
  rw [k1, if_neg hreg] at k5
  have hcne : st.costs ≠ [] := by
    intro he
    rw [he] at k5
    simp at k5
  obtain ⟨v, hv1, _, hv3⟩ := minElementIndex_spec st.costs hcne
  have hi : minElementIndex st.costs = 0 := by
    by_contra hne
    have hlt := hv3 0 0 (Nat.pos_of_ne_zero hne) k5
    have := row_cost_nonneg P H ego c init _ st hinv hk _ v hv1
    linarith
  rw [hi] at cX cY cS cT
  have hstate : out.ego.state = "KL" := (Option.some.inj (cS.symm.trans h0))
  rw [hstate, if_pos rfl] at cV
  refine ⟨hstate, Option.some.inj (cT.symm.trans k2), by rw [cV, k1], ?_, ?_⟩
  · rw [cV]
    exact Option.some.inj (cX.symm.trans k3)
  · rw [cV]
    exact Option.some.inj (cY.symm.trans k4)

/-- C12 as stated fails for a negative incoming reference speed: from state KL in lane 1 of
3 without tracked vehicles and with the incoming speed `-1` (below `REF_SPEED`), KL is
committed but the outgoing speed is the clamped value 0, not `-1 + REF_SPEED_CHANGE`. -/
theorem implementNextTrajectory_free_road_counterexample :
    (mkVehicle 1 0 0 "KL" 1 3).state = "KL" ∧
    (emptyCycle (-1) 1).vehicles = [] ∧ (emptyCycle (-1) 1).predictions = [] ∧
    (emptyCycle (-1) 1).r_vel < sampleParams.REF_SPEED ∧
    (emptyCycle (-1) 1).previous_x_path.length ≤ 50 ∧
    (implementNextTrajectory sampleParams sampleHelpers (mkVehicle 1 0 0 "KL" 1 3)
      (emptyCycle (-1) 1) false).map (fun o => o.r_vel) = some 0 ∧
    (0 : ℚ) ≠ (emptyCycle (-1) 1).r_vel + sampleParams.REF_SPEED_CHANGE := by
  have hreg : (regulateVelocity sampleParams (mkVehicle 1 0 0 "KL" 1 3)
      (emptyCycle (-1) 1).vehicles (emptyCycle (-1) 1).r_vel (emptyCycle (-1) 1).current_lane
      (emptyCycle (-1) 1).current_lane (emptyCycle (-1) 1).previous_x_path false).1 = 0 := by
    norm_num [regulateVelocity, regulateFlags, regulateLoop, sampleParams, emptyCycle]
  refine ⟨rfl, rfl, rfl, by norm_num [emptyCycle, sampleParams], by decide, ?_,
    by norm_num [emptyCycle, sampleParams]⟩
  obtain ⟨out, hout⟩ := implementNextTrajectory_total sampleParams sampleHelpers
    (mkVehicle 1 0 0 "KL" 1 3) (emptyCycle (-1) 1) false (by decide) (by decide)
  obtain ⟨_, _, hv, _, _⟩ := commit_KL_of_unpenalised sampleParams sampleHelpers
    (mkVehicle 1 0 0 "KL" 1 3) (emptyCycle (-1) 1) false out rfl hout
    (by rw [hreg]; norm_num [emptyCycle])
  rw [hout, Option.map_some', hv, hreg]

/-- C12 (amended): from maneuver state KL (in any lane, in particular lane 1 of 3) with no
tracked vehicles, an empty prediction map, an incoming reference speed below `REF_SPEED`
such that the raised speed `r_vel + REF_SPEED_CHANGE` is not negative, a non-negative step
`REF_SPEED_CHANGE` and a carried-over path of at most 50 samples, the cycle completes,
commits KL, the outgoing reference speed is the incoming one plus `REF_SPEED_CHANGE`, and
the output path has exactly 50 samples. -/
theorem implementNextTrajectory_free_road (P : Params) (H : Helpers) (ego : Vehicle)
    (c : Cycle) (init : Bool) (hs : ego.state = "KL") (hv : c.vehicles = [])
    (hp : c.predictions = []) (hr : c.r_vel < P.REF_SPEED) (h1 : 0 ≤ P.REF_SPEED_CHANGE)
    (h2 : 0 ≤ c.r_vel + P.REF_SPEED_CHANGE) (hn : c.previous_x_path.length ≤ 50) :
    ∃ out, implementNextTrajectory P H ego c init = some out ∧
      out.ego.state = "KL" ∧ out.r_vel = c.r_vel + P.REF_SPEED_CHANGE ∧
      out.next_vals_x.length = 50 ∧ out.next_vals_y.length = 50 := by
  have hidx : predictionsIndexed c.predictions := by
    rw [hp]
    intro j hj
    simp at hj
  have hne : successorStates ego ≠ [] := by
    intro h
    have := successorStates_head_KL ego hs
    rw [h] at this
    simp at this
  obtain ⟨out, hout⟩ := implementNextTrajectory_total P H ego c init hidx hne
  have hreg : (regulateVelocity P ego c.vehicles c.r_vel c.current_lane c.current_lane
      c.previous_x_path init).1 = c.r_vel + P.REF_SPEED_CHANGE := by
    rw [hv, regulateVelocity_no_vehicles, if_pos hr]
    exact max_eq_right h2
  obtain ⟨k1, _, k3, k4, k5⟩ := commit_KL_of_unpenalised P H ego c init out hs hout
    (by rw [hreg]; linarith)
  have hlen := generateXYTrajectory_length P H ego c.previous_x_path c.previous_y_path
    c.map_s_waypoints c.map_x_waypoints c.map_y_waypoints out.r_vel c.current_lane
  rw [newSampleCount_le _ hn] at hlen
  refine ⟨out, hout, k1, by rw [k3, hreg], ?_, ?_⟩
  · rw [k4, hlen.1]; omega
  · rw [k5, hlen.2]; omega

/-- Evaluation of the amended C12 in lane 1 of 3 with reference speed 20. -/
theorem implementNextTrajectory_free_road_witness :
    (mkVehicle 1 0 0 "KL" 1 3).state = "KL" ∧
    (emptyCycle 20 1).vehicles = [] ∧ (emptyCycle 20 1).predictions = [] ∧
    (emptyCycle 20 1).r_vel < sampleParams.REF_SPEED ∧
    0 ≤ sampleParams.REF_SPEED_CHANGE ∧
    0 ≤ (emptyCycle 20 1).r_vel + sampleParams.REF_SPEED_CHANGE ∧
    (emptyCycle 20 1).previous_x_path.length ≤ 50 ∧
    (implementNextTrajectory sampleParams sampleHelpers (mkVehicle 1 0 0 "KL" 1 3)
      (emptyCycle 20 1) false).map (fun o => (o.ego.state, o.r_vel, o.next_vals_x.length)) =
      some ("KL", 20 + sampleParams.REF_SPEED_CHANGE, 50) := by
  obtain ⟨out, hout, a, b, d, _⟩ := implementNextTrajectory_free_road sampleParams
    sampleHelpers (mkVehicle 1 0 0 "KL" 1 3) (emptyCycle 20 1) false rfl rfl rfl
    (by norm_num [emptyCycle, sampleParams]) (by norm_num [sampleParams])
    (by norm_num [emptyCycle, sampleParams]) (by decide)
  refine ⟨rfl, rfl, rfl, by norm_num [emptyCycle, sampleParams], by norm_num [sampleParams],
    by norm_num [emptyCycle, sampleParams], by decide, ?_⟩
  rw [hout, Option.map_some', a, b, d]
  rfl

/-- C11 as stated fails at reference speed 0: from state KL in lane 1 of 3 with one tracked
vehicle in lane 1 at `s + 15` with speed 0 and no predicted collision (empty prediction
map), the regulator cannot reduce the speed 0 any further, so KL is not penalised and KL is
committed, not LCL. -/
theorem implementNextTrajectory_lead_counterexample :
    (mkVehicle 1 100 0 "KL" 1 3).state = "KL" ∧ (mkVehicle 1 100 0 "KL" 1 3).lane = 1 ∧
    (mkVehicle 1 100 0 "KL" 1 3).lanes_available = 3 ∧
    (leadVehicleCycle 0).current_lane = 1 ∧
    (leadVehicleCycle 0).vehicles = [(0, mkVehicle 1 115 0 "CS" 1 3)] ∧
    (mkVehicle 1 115 0 "CS" 1 3).s = (mkVehicle 1 100 0 "KL" 1 3).s + 15 ∧
    (∀ (tl : Int) (tx ty : List ℚ),
      collisionEvent sampleParams sampleHelpers (leadVehicleCycle 0).predictions
        (leadVehicleCycle 0).r_vel 1 tl tx ty = some false) ∧
    (implementNextTrajectory sampleParams sampleHelpers (mkVehicle 1 100 0 "KL" 1 3)
      (leadVehicleCycle 0) false).map (fun o => o.ego.state) = some "KL" := by
  have hreg : (regulateVelocity sampleParams (mkVehicle 1 100 0 "KL" 1 3)
      (leadVehicleCycle 0).vehicles (leadVehicleCycle 0).r_vel
      (leadVehicleCycle 0).current_lane (leadVehicleCycle 0).current_lane
      (leadVehicleCycle 0).previous_x_path false).1 = 0 := by
    norm_num [regulateVelocity, regulateFlags, regulateLoop, sampleParams, leadVehicleCycle,
      mkVehicle]
  refine ⟨rfl, rfl, rfl, rfl, rfl, by norm_num [mkVehicle], ?_, ?_⟩
  · intro tl tx ty
    rfl
  · obtain ⟨out, hout⟩ := implementNextTrajectory_total sampleParams sampleHelpers
      (mkVehicle 1 100 0 "KL" 1 3) (leadVehicleCycle 0) false (by decide) (by decide)
    obtain ⟨hst, _⟩ := commit_KL_of_unpenalised sampleParams sampleHelpers
      (mkVehicle 1 100 0 "KL" 1 3) (leadVehicleCycle 0) false out rfl hout
      (by rw [hreg]; norm_num [leadVehicleCycle])
    rw [hout, Option.map_some', hst]

/-- C11 (amended): from maneuver state KL in lane 1 of 3 (`current_lane = 1`) with one
tracked vehicle in lane 1 at `s + 15` with speed 0, a positive incoming reference speed and
a positive step `REF_SPEED_CHANGE`, a cycle that completes with no predicted collision for
the LCL candidate commits LCL with `goal_lane = 0`, whatever the scan finds for the LCR
candidate: the cost 0.1 beats the 0.2 or 1.2 of LCR and the penalised cost 1 of KL. The
cycle completes whenever the prediction map has the keys `0 .. size-1` with non-empty
sequences. -/
theorem implementNextTrajectory_lead (P : Params) (H : Helpers) (ego veh : Vehicle)
    (id : Int) (c : Cycle) (init : Bool)
    (hs : ego.state = "KL") (hl : ego.lane = 1) (hla : ego.lanes_available = 3)
    (hc : c.current_lane = 1) (hveh : c.vehicles = [(id, veh)])
    (hvl : veh.lane = 1) (hvs : veh.s = ego.s + 15) (hvv : veh.v = 0)
    (hr : 0 < c.r_vel) (hstep : 0 < P.REF_SPEED_CHANGE) :
    (predictionsIndexed c.predictions →
      ∃ out, implementNextTrajectory P H ego c init = some out) ∧
    ∀ out, implementNextTrajectory P H ego c init = some out →
      ∃ st, candidateLoop P H ego c (successorStates ego) (initialLoopState c init) = some st ∧
        (successorStates ego)[1]? = some "LCL" ∧
        (¬ candidatePenalised P H ego c init st "LCL" 1 →
          out.ego.state = "LCL" ∧ out.ego.goal_lane = 0) := by
  have hsucc : successorStates ego = ["KL", "LCL", "LCR"] := by
    simp [successorStates, hs, hl, hla]
  refine ⟨fun hidx => implementNextTrajectory_total P H ego c init hidx
    (by rw [hsucc]; simp), ?_⟩
  intro out hout
  obtain ⟨st, hst, hcommit⟩ := implementNextTrajectory_eq_some P H ego c init out hout
  have hinv := candidateLoop_successors P H ego c init st hst
  have hk := successorStates_known ego
  obtain ⟨_, _, cS, cT, _, _, _⟩ := commit_eq_some ego c _ st out hcommit
  rw [hsucc] at cS hinv hk
  refine ⟨st, hst, by rw [hsucc]; rfl, ?_⟩
  intro hfree
  -- the three costs
  have hKLpen : candidatePenalised P H ego c init st "KL" 0 := by
    left
    refine ⟨rfl, ?_⟩
    rw [hveh, hc, regulateVelocity_single_lead P ego veh id c.r_vel 1 c.previous_x_path init
      hvl hvs hvv]
    rcases le_total (c.r_vel - P.REF_SPEED_CHANGE) 0 with h | h
    · rw [max_eq_left h]; exact hr
    · rw [max_eq_right h]; linarith
  obtain ⟨c0, hc0, hc0P, _⟩ := row_cost P H ego c init _ st hinv hk 0 "KL" rfl
  obtain ⟨c1, hc1, _, hc1N⟩ := row_cost P H ego c init _ st hinv hk 1 "LCL" rfl
  obtain ⟨c2, hc2, hc2P, hc2N⟩ := row_cost P H ego c init _ st hinv hk 2 "LCR" rfl
  have e0 : c0 = 1 := by rw [hc0P hKLpen, stateRank_values.1]; norm_num
  have e1 : c1 = 1 / 10 := by rw [hc1N hfree, stateRank_values.2.1]; norm_num
  have e2 : 1 / 5 ≤ c2 := by
    by_cases hp : candidatePenalised P H ego c init st "LCR" 2
    · rw [hc2P hp, stateRank_values.2.2]; norm_num
    · rw [hc2N hp, stateRank_values.2.2]; norm_num
  have hcne : st.costs ≠ [] := by
    intro he
    rw [he] at hc0
    simp at hc0
  obtain ⟨v, hv1, hv2, hv3⟩ := minElementIndex_spec st.costs hcne
  have hi : minElementIndex st.costs = 1 := by
    have hlt : minElementIndex st.costs < 3 := by
      rw [List.getElem?_eq_some_iff] at hv1
      obtain ⟨h, _⟩ := hv1
      rw [hinv.lenC] at h
      simpa using h
    have hle := hv2 1 c1 hc1
    rcases Nat.lt_or_ge (minElementIndex st.costs) 1 with h0 | h1
    · have hz : minElementIndex st.costs = 0 := by omega
      rw [hz] at hv1
      have : v = c0 := Option.some.inj (hv1.symm.trans hc0)
      rw [this, e0, e1] at hle
      norm_num at hle
    · rcases Nat.eq_or_lt_of_le h1 with h | h
      · exact h.symm
      · have h2 : minElementIndex st.costs = 2 := by omega
        have hlt1 := hv3 1 c1 (by omega) hc1
        rw [h2] at hv1
        have : v = c2 := Option.some.inj (hv1.symm.trans hc2)
        rw [this, e1] at hlt1
        linarith
  rw [hi] at cS cT
  have hstate : out.ego.state = "LCL" := by
    have : (["KL", "LCL", "LCR"] : List String)[1]? = some "LCL" := rfl
    exact (Option.some.inj (cS.symm.trans this))
  refine ⟨hstate, ?_⟩
  obtain ⟨tl, _, _, _, r1, _, _, _, _, _, hgd, _⟩ := hinv.lcl 1 rfl
  have hg : c.current_lane > 0 := by rw [hc]; decide
  obtain ⟨g1, _⟩ := hgd hg
  have : out.ego.goal_lane = tl := Option.some.inj (cT.symm.trans r1)
  rw [this, g1, hc]
  rfl

/-- Evaluation of the amended C11 with the ego at `s = 100` and reference speed 20: the
cycle completes. -/
theorem implementNextTrajectory_lead_witness :
    (mkVehicle 1 100 0 "KL" 1 3).state = "KL" ∧ (mkVehicle 1 100 0 "KL" 1 3).lane = 1 ∧
    (mkVehicle 1 100 0 "KL" 1 3).lanes_available = 3 ∧
    (leadVehicleCycle 20).current_lane = 1 ∧
    (leadVehicleCycle 20).vehicles = [(0, mkVehicle 1 115 0 "CS" 1 3)] ∧
    (mkVehicle 1 115 0 "CS" 1 3).lane = 1 ∧
    (mkVehicle 1 115 0 "CS" 1 3).s = (mkVehicle 1 100 0 "KL" 1 3).s + 15 ∧
    (mkVehicle 1 115 0 "CS" 1 3).v = 0 ∧
    0 < (leadVehicleCycle 20).r_vel ∧ 0 < sampleParams.REF_SPEED_CHANGE ∧
    (implementNextTrajectory sampleParams sampleHelpers (mkVehicle 1 100 0 "KL" 1 3)
      (leadVehicleCycle 20) false).isSome = true :=
  ⟨rfl, rfl, rfl, rfl, rfl, rfl, by norm_num [mkVehicle], rfl,
    by norm_num [leadVehicleCycle], by norm_num [sampleParams],
    Option.isSome_iff_exists.2
      ((implementNextTrajectory_lead sampleParams sampleHelpers (mkVehicle 1 100 0 "KL" 1 3)
        (mkVehicle 1 115 0 "CS" 1 3) 0 (leadVehicleCycle 20) false rfl rfl rfl rfl rfl rfl
        (by norm_num [mkVehicle]) rfl (by norm_num [leadVehicleCycle])
        (by norm_num [sampleParams])).1 (by decide))⟩

/-! ## Lane guards of the lane-change candidates -/

/-- C13 fails on the code with four lanes: in lane 2 of 4 the state LCR is a successor and
`current_lane = 2 < lanes_available - 1`, but the iteration for LCR neither runs the
regulator nor the synthesiser: from any loop state it pushes an empty path and the stale
`target_lane`, and leaves `current_LCR_vel` untouched, because the guard is the constant
`current_lane < 2`. -/
theorem candidateStep_LCR_four_lanes_skipped :
    "LCR" ∈ successorStates (mkVehicle 2 0 0 "KL" 2 4) ∧
    (0 : Int) ≤ (emptyCycle 20 2).current_lane ∧
    (emptyCycle 20 2).current_lane < (mkVehicle 2 0 0 "KL" 2 4).lanes_available ∧
    (emptyCycle 20 2).current_lane < (mkVehicle 2 0 0 "KL" 2 4).lanes_available - 1 ∧
    ∀ st : LoopState,
      candidateStep sampleParams sampleHelpers (mkVehicle 2 0 0 "KL" 2 4) (emptyCycle 20 2)
          st "LCR" =
        some { st with
          genericTrajsX := st.genericTrajsX ++ [[]]
          genericTrajsY := st.genericTrajsY ++ [[]]
          costs := st.costs ++ [1/5]
          target_lanes := st.target_lanes ++ [st.target_lane] } := by
  refine ⟨by decide, by decide, by decide, by decide, ?_⟩
  intro st
  have a1 : ¬ ("LCR" = "KL") := by decide
  have a2 : ¬ ("LCR" = "LCL") := by decide
  have hg : ¬ ((emptyCycle 20 2).current_lane < 2) := by decide
  simp only [candidateStep, a1, a2, if_false, if_true, hg]
  rfl

/-- What the loop does for the lane-change candidates: for LCL the regulator and the
synthesiser run with target lane `current_lane - 1` exactly when `current_lane > 0`, for LCR
with target lane `current_lane + 1` exactly when `current_lane < 2`; otherwise the path of
the candidate is empty. -/
theorem candidate_lane_guards (P : Params) (H : Helpers) (ego : Vehicle) (c : Cycle)
    (init : Bool) (st : LoopState)
    (hst : candidateLoop P H ego c (successorStates ego) (initialLoopState c init) = some st)
    (i : Nat) :
    ((successorStates ego)[i]? = some "LCL" →
      ∃ tl tx ty, st.target_lanes[i]? = some tl ∧ st.genericTrajsX[i]? = some tx ∧
        st.genericTrajsY[i]? = some ty ∧
        (c.current_lane > 0 → tl = c.current_lane - 1 ∧
          (tx, ty) = generateXYTrajectory P H ego [] [] c.previous_x_path c.previous_y_path
            c.map_s_waypoints c.map_x_waypoints c.map_y_waypoints
            (regulateVelocity P ego c.vehicles c.r_vel c.current_lane (c.current_lane - 1)
              c.previous_x_path init).1 (c.current_lane - 1)) ∧
        (¬ c.current_lane > 0 → tx = [] ∧ ty = [])) ∧
    ((successorStates ego)[i]? = some "LCR" →
      ∃ tl tx ty, st.target_lanes[i]? = some tl ∧ st.genericTrajsX[i]? = some tx ∧
        st.genericTrajsY[i]? = some ty ∧
        (c.current_lane < 2 → tl = c.current_lane + 1 ∧
          (tx, ty) = generateXYTrajectory P H ego [] [] c.previous_x_path c.previous_y_path
            c.map_s_waypoints c.map_x_waypoints c.map_y_waypoints
            (regulateVelocity P ego c.vehicles c.r_vel c.current_lane (c.current_lane + 1)
              c.previous_x_path init).1 (c.current_lane + 1)) ∧
        (¬ c.current_lane < 2 → tx = [] ∧ ty = [])) := by
  have hinv := candidateLoop_successors P H ego c init st hst
  constructor
  · intro hi
    obtain ⟨tl, tx, ty, _, h1, h2, h3, _, _, _, hgd, hskip⟩ := hinv.lcl i hi
    refine ⟨tl, tx, ty, h1, h2, h3, ?_, fun hg => ⟨(hskip hg).1, (hskip hg).2.1⟩⟩
    intro hg
    obtain ⟨g1, g2, g3, g4⟩ := hgd hg
    refine ⟨g1, ?_⟩
    rw [g3, g4, g2]
  · intro hi
    obtain ⟨tl, tx, ty, _, h1, h2, h3, _, _, _, hgd, hskip⟩ := hinv.lcr i hi
    refine ⟨tl, tx, ty, h1, h2, h3, ?_, fun hg => ⟨(hskip hg).1, (hskip hg).2.1⟩⟩
    intro hg
    obtain ⟨g1, g2, g3, g4⟩ := hgd hg
    refine ⟨g1, ?_⟩
    rw [g3, g4, g2]

/-! ## Lane boundaries -/

/-- C14 as stated fails on a road with a single lane: at lane 0 in state KL the only
successor state is KL, so the LCR candidate is not evaluated. -/
theorem successorStates_single_lane_counterexample :
    (mkVehicle 0 0 0 "KL" 0 1).state = "KL" ∧ (mkVehicle 0 0 0 "KL" 0 1).lane = 0 ∧
    successorStates (mkVehicle 0 0 0 "KL" 0 1) = ["KL"] ∧
    successorStates (mkVehicle 0 0 0 "KL" 0 1) ≠ ["KL", "LCR"] := by
  refine ⟨rfl, rfl, by decide, by decide⟩

/-- C14 (amended): a cycle that completes with the ego in lane 0 never commits LCL, and one
with the ego in lane `lanes_available - 1` never commits LCR (whatever the argument
`current_lane` is, in particular when it equals the ego lane); at lane 0 in state KL the
candidates evaluated are exactly KL and LCR when lane 0 is not also the last lane
(`lanes_available ≠ 1`), and exactly KL on a single-lane road. A cycle with a non-empty
successor list completes whenever the prediction map has the keys `0 .. size-1` with
non-empty sequences. -/
theorem committed_state_lane_bounds (P : Params) (H : Helpers) (ego : Vehicle) (c : Cycle)
    (init : Bool) :
    (predictionsIndexed c.predictions → successorStates ego ≠ [] →
      ∃ out, implementNextTrajectory P H ego c init = some out) ∧
    (∀ out, implementNextTrajectory P H ego c init = some out →
      (ego.lane = 0 → out.ego.state ≠ "LCL") ∧
      (ego.lane = ego.lanes_available - 1 → out.ego.state ≠ "LCR")) ∧
    (ego.state = "KL" → ego.lane = 0 →
      (ego.lanes_available ≠ 1 → successorStates ego = ["KL", "LCR"] ∧
        ∀ st, candidateLoop P H ego c (successorStates ego) (initialLoopState c init) =
          some st → st.costs.length = 2 ∧ st.genericTrajsX.length = 2) ∧
      (ego.lanes_available = 1 → successorStates ego = ["KL"] ∧
        ∀ st, candidateLoop P H ego c (successorStates ego) (initialLoopState c init) =
          some st → st.costs.length = 1 ∧ st.genericTrajsX.length = 1)) := by
  refine ⟨fun hidx hne => implementNextTrajectory_total P H ego c init hidx hne, ?_, ?_⟩
  · intro out hout
    obtain ⟨st, _, hcommit⟩ := implementNextTrajectory_eq_some P H ego c init out hout
    obtain ⟨_, _, cS, _, _, _, _⟩ := commit_eq_some ego c _ st out hcommit
    have hmem := mem_of_getElem_eq _ _ _ cS
    constructor
    · intro h0 hL
      rw [hL] at hmem
      exact successorStates_LCL_lane ego hmem h0
    · intro h0 hR
      rw [hR] at hmem
      exact successorStates_LCR_lane ego hmem h0
  · intro hs h0
    have hlen : ∀ st, candidateLoop P H ego c (successorStates ego) (initialLoopState c init) =
        some st → st.costs.length = (successorStates ego).length ∧
          st.genericTrajsX.length = (successorStates ego).length := by
      intro st hst
      have hinv := candidateLoop_successors P H ego c init st hst
      exact ⟨hinv.lenC, hinv.lenX⟩
    constructor
    · intro hla
      have hsucc : successorStates ego = ["KL", "LCR"] := by
        have : ¬ ((0 : Int) = ego.lanes_available - 1) := by omega
        simp [successorStates, hs, h0, this]
      refine ⟨hsucc, fun st hst => ?_⟩
      have := hlen st hst
      rw [hsucc] at this
      exact this
    · intro hla
      have hsucc : successorStates ego = ["KL"] := by
        simp [successorStates, hs, h0, hla]
      refine ⟨hsucc, fun st hst => ?_⟩
      have := hlen st hst
      rw [hsucc] at this
      exact this

/-! ## Range of the committed goal lane -/

/-- C20: with the ego lane in `[0, lanes_available)` (so `lanes_available ≥ 1`),
`current_lane` equal to the ego lane and a non-empty successor list, every committed
`goal_lane` lies in `[0, lanes_available)` and differs from the current lane by at most 1.
Such a cycle completes whenever the prediction map has the keys `0 .. size-1` with non-empty
sequences. -/
theorem committed_goal_lane_range (P : Params) (H : Helpers) (ego : Vehicle) (c : Cycle)
    (init : Bool) (h0 : 0 ≤ ego.lane)
    (h1 : ego.lane < ego.lanes_available) (hc : c.current_lane = ego.lane)
    (hne : successorStates ego ≠ []) :
    (predictionsIndexed c.predictions →
      ∃ out, implementNextTrajectory P H ego c init = some out) ∧
    ∀ out, implementNextTrajectory P H ego c init = some out →
      0 ≤ out.ego.goal_lane ∧ out.ego.goal_lane < ego.lanes_available ∧
      |out.ego.goal_lane - c.current_lane| ≤ 1 := by
  refine ⟨fun hidx => implementNextTrajectory_total P H ego c init hidx hne, ?_⟩
  intro out hout
  obtain ⟨st, hst, hcommit⟩ := implementNextTrajectory_eq_some P H ego c init out hout
  have hinv := candidateLoop_successors P H ego c init st hst
  obtain ⟨_, _, cS, cT, _, _, _⟩ := commit_eq_some ego c _ st out hcommit
  have hmem := mem_of_getElem_eq _ _ _ cS
  have hgoal : out.ego.goal_lane = c.current_lane ∨
      out.ego.goal_lane = c.current_lane - 1 ∧ 0 < c.current_lane ∨
      out.ego.goal_lane = c.current_lane + 1 ∧ c.current_lane < ego.lanes_available - 1 := by
    rcases successorStates_known ego _ hmem with e | e | e
    · rw [e] at cS
      obtain ⟨_, k2, _⟩ := hinv.kl _ cS
      exact Or.inl (Option.some.inj (cT.symm.trans k2))
    · rw [e] at cS hmem
      obtain ⟨tl, _, _, _, r1, _, _, _, _, _, hgd, _⟩ := hinv.lcl _ cS
      have hg : c.current_lane > 0 := by
        have := successorStates_LCL_lane ego hmem
        omega
      obtain ⟨g1, _⟩ := hgd hg
      have : out.ego.goal_lane = tl := Option.some.inj (cT.symm.trans r1)
      exact Or.inr (Or.inl ⟨by rw [this, g1], hg⟩)
    · rw [e] at cS hmem
      obtain ⟨tl, _, _, _, r1, _, _, _, _, hnear, _, _⟩ := hinv.lcr _ cS
      have hlast : c.current_lane < ego.lanes_available - 1 := by
        have := successorStates_LCR_lane ego hmem
        omega
      have : out.ego.goal_lane = tl := Option.some.inj (cT.symm.trans r1)
      rw [this]
      rcases hnear with n1 | ⟨n2, n3⟩ | ⟨_, n5⟩
      · exact Or.inl n1
      · exact Or.inr (Or.inl ⟨n3, n2⟩)
      · exact Or.inr (Or.inr ⟨n5, hlast⟩)
  rw [abs_le]
  rcases hgoal with g | ⟨g, hg⟩ | ⟨g, hg⟩ <;> rw [g] <;> refine ⟨?_, ?_, ?_, ?_⟩ <;> omega

/-- Evaluation of C20 in state KL in lane 1 of 3: the cycle completes. -/
theorem committed_goal_lane_range_witness :
    (1 : Int) ≤ (mkVehicle 1 0 0 "KL" 1 3).lanes_available ∧
    (0 : Int) ≤ (mkVehicle 1 0 0 "KL" 1 3).lane ∧
    (mkVehicle 1 0 0 "KL" 1 3).lane < (mkVehicle 1 0 0 "KL" 1 3).lanes_available ∧
    (emptyCycle 20 1).current_lane = (mkVehicle 1 0 0 "KL" 1 3).lane ∧
    successorStates (mkVehicle 1 0 0 "KL" 1 3) ≠ [] ∧
    (implementNextTrajectory sampleParams sampleHelpers (mkVehicle 1 0 0 "KL" 1 3)
      (emptyCycle 20 1) false).isSome = true :=
  ⟨by decide, by decide, by decide, rfl, by decide,
    Option.isSome_iff_exists.2
      ((committed_goal_lane_range sampleParams sampleHelpers (mkVehicle 1 0 0 "KL" 1 3)
        (emptyCycle 20 1) false (by decide) (by decide) rfl (by decide)).1
        (by decide))⟩

end PathPlanning
